import Mathlib

/-!
Shallow embedding of the client-side capability (cache-coherence lease)
protocol of fs/ceph/caps.c: the cap allocator/reservation pool, the
per-capability bitset state machine (`ceph_add_cap`, `handle_cap_grant`),
the flush tracker (`__ceph_mark_dirty_caps`, `__mark_caps_flushing`,
`handle_cap_flush_ack`, `__detach_cap_flush_from_ci/mdsc`), cap migration
(`handle_cap_export`), the non-blocking acquisition path
(`try_get_cap_refs`, `ceph_try_get_caps`) and the incoming-message
dispatcher (`ceph_handle_caps`).

Machine integers are modelled as `Nat` (bit masks are 32-bit wide; the
complement is taken within 32 bits) or `Int` (signed counters, return
codes).  Intrusive doubly-linked lists are modelled as Lean `List`s kept
in the order the kernel keeps them (insertion at the tail).
-/

namespace CephCaps

/-- Bit width of a cap mask: cap bitsets live in a `u32`. -/
def capWidth : Nat := 32

/-- All-ones 32-bit mask. -/
def fullMask : Nat := 2 ^ capWidth - 1

/-- 32-bit complement, `~x` on a `u32`. -/
def notW (x : Nat) : Nat := x ^^^ fullMask

/-- `a` is a sub-bitset of `b` (every bit of `a` is set in `b`). -/
def bitsub (a b : Nat) : Prop := a &&& b = a

instance (a b : Nat) : Decidable (bitsub a b) := by
  unfold bitsub; infer_instance

theorem testBit_fullMask (i : Nat) :
    fullMask.testBit i = decide (i < capWidth) := by
  simp [fullMask, Nat.testBit_two_pow_sub_one]

theorem bitsub_iff (a b : Nat) :
    bitsub a b ↔ ∀ i, a.testBit i = true → b.testBit i = true := by
  constructor
  · intro h i hi
    have := congrArg (fun n => n.testBit i) h
    simp only [Nat.testBit_and] at this
    cases hb : b.testBit i
    · rw [hb] at this; simp [hi] at this
    · rfl
  · intro h
    apply Nat.eq_of_testBit_eq
    intro i
    simp only [Nat.testBit_and]
    cases ha : a.testBit i
    · simp
    · simp [h i ha]

theorem bitsub_lor_self_right (a b : Nat) : bitsub a (b ||| a) := by
  rw [bitsub_iff]
  intro i hi
  simp [Nat.testBit_or, hi]

theorem bitsub_lor_self_left (a b : Nat) : bitsub a (a ||| b) := by
  rw [bitsub_iff]
  intro i hi
  simp [Nat.testBit_or, hi]

theorem bitsub_refl (a : Nat) : bitsub a a := by
  rw [bitsub_iff]; intro i hi; exact hi

theorem bitsub_trans {a b c : Nat} (h1 : bitsub a b) (h2 : bitsub b c) :
    bitsub a c := by
  rw [bitsub_iff] at *
  intro i hi; exact h2 i (h1 i hi)

theorem bitsub_lor {a b c : Nat} (h1 : bitsub a c) (h2 : bitsub b c) :
    bitsub (a ||| b) c := by
  rw [bitsub_iff] at *
  intro i hi
  rcases Nat.testBit_or a b i ▸ hi with h
  rcases Bool.or_eq_true_iff.mp h with h' | h'
  · exact h1 i h'
  · exact h2 i h'

/-! ### Protocol constants

Modelled from the spec: the concrete capability bit assignments and the
errno values come from protocol/uapi headers that are not part of the
capability core (`include/linux/ceph/ceph_fs.h`,
`include/uapi/asm-generic/errno*.h`); only the bit positions and the
distinctness of the error numbers matter to the theorems below. -/

def CEPH_CAP_PIN : Nat := 1

def CEPH_CAP_GSHARED : Nat := 1
def CEPH_CAP_GEXCL : Nat := 2
def CEPH_CAP_GCACHE : Nat := 4
def CEPH_CAP_GRD : Nat := 8
def CEPH_CAP_GWR : Nat := 16
def CEPH_CAP_GBUFFER : Nat := 32
def CEPH_CAP_GWREXTEND : Nat := 64
def CEPH_CAP_GLAZYIO : Nat := 128

def CEPH_CAP_SAUTH : Nat := 2
def CEPH_CAP_SLINK : Nat := 4
def CEPH_CAP_SXATTR : Nat := 6
def CEPH_CAP_SFILE : Nat := 8

def CEPH_CAP_AUTH_SHARED : Nat := CEPH_CAP_GSHARED <<< CEPH_CAP_SAUTH
def CEPH_CAP_AUTH_EXCL : Nat := CEPH_CAP_GEXCL <<< CEPH_CAP_SAUTH
def CEPH_CAP_LINK_SHARED : Nat := CEPH_CAP_GSHARED <<< CEPH_CAP_SLINK
def CEPH_CAP_LINK_EXCL : Nat := CEPH_CAP_GEXCL <<< CEPH_CAP_SLINK
def CEPH_CAP_XATTR_SHARED : Nat := CEPH_CAP_GSHARED <<< CEPH_CAP_SXATTR
def CEPH_CAP_XATTR_EXCL : Nat := CEPH_CAP_GEXCL <<< CEPH_CAP_SXATTR
def CEPH_CAP_FILE_SHARED : Nat := CEPH_CAP_GSHARED <<< CEPH_CAP_SFILE
def CEPH_CAP_FILE_EXCL : Nat := CEPH_CAP_GEXCL <<< CEPH_CAP_SFILE
def CEPH_CAP_FILE_CACHE : Nat := CEPH_CAP_GCACHE <<< CEPH_CAP_SFILE
def CEPH_CAP_FILE_RD : Nat := CEPH_CAP_GRD <<< CEPH_CAP_SFILE
def CEPH_CAP_FILE_WR : Nat := CEPH_CAP_GWR <<< CEPH_CAP_SFILE
def CEPH_CAP_FILE_BUFFER : Nat := CEPH_CAP_GBUFFER <<< CEPH_CAP_SFILE
def CEPH_CAP_FILE_WREXTEND : Nat := CEPH_CAP_GWREXTEND <<< CEPH_CAP_SFILE
def CEPH_CAP_FILE_LAZYIO : Nat := CEPH_CAP_GLAZYIO <<< CEPH_CAP_SFILE

def CEPH_CAP_ANY_FILE_WR : Nat :=
  CEPH_CAP_FILE_WR ||| CEPH_CAP_FILE_BUFFER ||| CEPH_CAP_FILE_WREXTEND

def CEPH_FILE_MODE_RD : Nat := 1
def CEPH_FILE_MODE_WR : Nat := 2

/-- Errno values (positive; the kernel returns their negations). -/
def EIO : Int := 5
def EAGAIN : Int := 11
def EFBIG : Int := 27
def EROFS : Int := 30
def ESTALE : Int := 116
def EUCLEAN : Int := 117

/-- Modelled from the spec: migration races "are resolved purely by
comparing sequence numbers (`seq`/`mseq`)"; the comparison helper
`ceph_seq_cmp` lives outside the capability core and computes the signed
32-bit difference `(__s32)a - (__s32)b` of two `u32` sequence numbers. -/
def toInt32 (a : Nat) : Int :=
  if a % 2 ^ 32 < 2 ^ 31 then (a % 2 ^ 32 : Int) else (a % 2 ^ 32 : Int) - 2 ^ 32

def ceph_seq_cmp (a b : Nat) : Int := toInt32 a - toInt32 b

/-! ### Per-capability state (`struct ceph_cap`)

Fields touched by `ceph_add_cap` and the cap-bit part of
`handle_cap_grant`: the four bitsets plus the sequence/generation
stamps. -/

structure CephCap where
  issued : Nat
  implemented : Nat
  mds_wanted : Nat
  seq : Nat
  issue_seq : Nat
  mseq : Nat
  cap_id : Nat
  cap_gen : Nat
  deriving Repr, DecidableEq

/-- Invariant claimed by the spec: `issued ⊆ implemented`. -/
def capInvariant (c : CephCap) : Prop := bitsub c.issued c.implemented

instance (c : CephCap) : Decidable (capInvariant c) := by
  unfold capInvariant; infer_instance

/-- The fresh-capability initialisation of `ceph_add_cap` (caps.c:673-692):
`cap->issued = 0; cap->implemented = 0; cap->mds_wanted = 0; cap->mseq = 0`.
The remaining fields are overwritten before the function returns; they are
given the argument values the tail assignments store into them. -/
def newCapInit : CephCap :=
  { issued := 0, implemented := 0, mds_wanted := 0, seq := 0,
    issue_seq := 0, mseq := 0, cap_id := 0, cap_gen := 0 }

/-- `ceph_add_cap` (caps.c:650-780) restricted to the fields of the
capability record itself.  `existing` is `__get_cap_for_mds(ci, mds)`;
`gen` is the session's `s_cap_gen`.  Returns the updated capability
together with the possibly-rewritten `seq`/`mseq`/`issued`/`flags_auth`
(the "export arrived first" merge, caps.c:698-717). -/
def ceph_add_cap (existing : Option CephCap) (gen cap_id : Nat)
    (issued wanted seq mseq : Nat) (flag_auth : Bool) :
    CephCap × Bool :=
  -- resolve the existing-cap merge first
  let st :=
    match existing with
    | none => (newCapInit, issued, seq, mseq, flag_auth)
    | some cap0 =>
      -- if (cap->cap_gen < gen) cap->issued = cap->implemented = CEPH_CAP_PIN
      let cap1 := if cap0.cap_gen < gen then
          { cap0 with issued := CEPH_CAP_PIN, implemented := CEPH_CAP_PIN }
        else cap0
      -- if (ceph_seq_cmp(seq, cap->seq) <= 0) { seq = cap->seq; mseq = cap->mseq;
      --   issued |= cap->issued; flags |= CEPH_CAP_FLAG_AUTH; }
      if ceph_seq_cmp seq cap1.seq ≤ 0 then
        (cap1, issued ||| cap1.issued, cap1.seq, cap1.mseq, true)
      else
        (cap1, issued, seq, mseq, flag_auth)
  match st with
  | (cap, issued', seq', mseq', auth') =>
    -- tail assignments, caps.c:768-778
    ({ cap with
        cap_id := cap_id,
        issued := issued',
        implemented := cap.implemented ||| issued',
        mds_wanted := if ceph_seq_cmp mseq' cap.mseq > 0 then wanted
                      else cap.mds_wanted ||| wanted,
        seq := seq',
        issue_seq := seq',
        mseq := mseq',
        cap_gen := gen },
     auth')

/-- The cap-bit portion of `handle_cap_grant` (caps.c:3545-3740): the
stale-generation reset, the "grant before import" seq merge, and the
revocation/no-op/grant three-way branch on `issued`/`implemented`.
`session_gen` is the session's `s_cap_gen`; `seq`/`newcaps` come from the
message.  Returns the updated capability. -/
def handle_cap_grant_bits (cap : CephCap) (session_gen seq newcaps : Nat) :
    CephCap :=
  -- bool was_stale = cap->cap_gen < atomic_read(&session->s_cap_gen);
  let was_stale := cap.cap_gen < session_gen
  -- if (was_stale) cap->issued = cap->implemented = CEPH_CAP_PIN;
  let cap1 := if was_stale then
      { cap with issued := CEPH_CAP_PIN, implemented := CEPH_CAP_PIN }
    else cap
  -- if (ceph_seq_cmp(seq, cap->seq) <= 0) { seq = cap->seq; newcaps |= cap->issued; }
  let p := if ceph_seq_cmp seq cap1.seq ≤ 0 then
      (cap1.seq, newcaps ||| cap1.issued)
    else (seq, newcaps)
  match p with
  | (seq', newcaps') =>
    -- cap->cap_gen = gen; cap->seq = seq;
    let cap2 := { cap1 with cap_gen := session_gen, seq := seq' }
    -- revocation, grant, or no-op (caps.c:3698-3739)
    if cap2.issued &&& notW newcaps' ≠ 0 then
      { cap2 with issued := newcaps',
                  implemented := cap2.implemented ||| newcaps' }
    else if cap2.issued = newcaps' then
      cap2
    else
      { cap2 with issued := newcaps',
                  implemented := cap2.implemented ||| newcaps' }

/-- The cap-bit effect of `__prep_cap` (caps.c:1413-1421), run by the
reconciliation engine before each outgoing cap message:
`cap->issued &= retain; cap->implemented &= cap->issued | used;
cap->mds_wanted = want;`. -/
def prep_cap_bits (cap : CephCap) (used want retain : Nat) : CephCap :=
  let issued' := cap.issued &&& retain
  { cap with issued := issued',
             implemented := cap.implemented &&& (issued' ||| used),
             mds_wanted := want }

/-- The export-target merge of `handle_cap_export` (caps.c:4125-4129) when
a record for the destination MDS already exists:
`tcap->cap_id = t_cap_id; tcap->seq = t_issue_seq - 1;
tcap->issue_seq = t_issue_seq - 1; tcap->issued |= issued;
tcap->implemented |= issued;`. -/
def export_update_tcap (tcap : CephCap) (t_cap_id t_issue_seq issued : Nat) :
    CephCap :=
  { tcap with cap_id := t_cap_id, seq := t_issue_seq - 1,
              issue_seq := t_issue_seq - 1,
              issued := tcap.issued ||| issued,
              implemented := tcap.implemented ||| issued }

theorem bitsub_land_left {a b : Nat} (r : Nat) (h : bitsub a b) :
    bitsub (a &&& r) b := by
  rw [bitsub_iff] at *
  intro i hi
  rw [Nat.testBit_and] at hi
  exact h i (Bool.and_eq_true_iff.mp hi).1

theorem bitsub_land {x y z : Nat} (h1 : bitsub x y) (h2 : bitsub x z) :
    bitsub x (y &&& z) := by
  rw [bitsub_iff] at *
  intro i hi
  rw [Nat.testBit_and, h1 i hi, h2 i hi]
  rfl

theorem bitsub_lor_mono {a b x : Nat} (h : bitsub a b) :
    bitsub (a ||| x) (b ||| x) := by
  rw [bitsub_iff] at *
  intro i hi
  rw [Nat.testBit_or] at hi ⊢
  rcases Bool.or_eq_true_iff.mp hi with h' | h'
  · rw [h i h']; rfl
  · rw [h']; simp

theorem ceph_add_cap_invariant (existing : Option CephCap)
    (gen cap_id issued wanted seq mseq : Nat) (fa : Bool) :
    capInvariant (ceph_add_cap existing gen cap_id issued wanted seq mseq fa).1 := by
  unfold ceph_add_cap capInvariant
  cases existing with
  | none => exact bitsub_lor_self_right _ _
  | some cap0 =>
    dsimp only
    split <;> exact bitsub_lor_self_right _ _

theorem handle_cap_grant_bits_invariant (cap : CephCap)
    (sgen seq newcaps : Nat) (h : capInvariant cap) :
    capInvariant (handle_cap_grant_bits cap sgen seq newcaps) := by
  unfold handle_cap_grant_bits capInvariant
  dsimp only
  by_cases hst : cap.cap_gen < sgen <;>
    simp only [hst, if_true, if_false, reduceIte] <;>
    split <;> dsimp only <;>
    split
  · exact bitsub_lor_self_right _ _
  · split
    · exact bitsub_refl _
    · exact bitsub_lor_self_right _ _
  · exact bitsub_lor_self_right _ _
  · split
    · exact bitsub_refl _
    · exact bitsub_lor_self_right _ _
  · exact bitsub_lor_self_right _ _
  · split
    · exact h
    · exact bitsub_lor_self_right _ _
  · exact bitsub_lor_self_right _ _
  · split
    · exact h
    · exact bitsub_lor_self_right _ _

theorem prep_cap_bits_invariant (cap : CephCap) (used want retain : Nat)
    (h : capInvariant cap) :
    capInvariant (prep_cap_bits cap used want retain) := by
  unfold prep_cap_bits capInvariant
  dsimp only
  exact bitsub_land (bitsub_land_left retain h) (bitsub_lor_self_left _ _)

theorem export_update_tcap_invariant (tcap : CephCap)
    (t_cap_id t_issue_seq issued : Nat) (h : capInvariant tcap) :
    capInvariant (export_update_tcap tcap t_cap_id t_issue_seq issued) := by
  unfold export_update_tcap capInvariant
  dsimp only
  exact bitsub_lor_mono h

/-- C1: for every capability and after every public mutation of capability
state — adding a cap (`ceph_add_cap`), applying a grant or revoke or
handling an import (`handle_cap_grant`), handling an export
(`handle_cap_export`'s target-cap merge), and reconciliation's outgoing
update (`__prep_cap`) — the capability's issued bitset is a subset of its
implemented bitset. -/
theorem C1_issued_subset_implemented
    (existing : Option CephCap) (gen cap_id issued wanted seq mseq : Nat)
    (fa : Bool)
    (gcap : CephCap) (sgen gseq gnew : Nat)
    (pcap : CephCap) (used want retain : Nat)
    (tcap : CephCap) (tcid tiseq eissued : Nat)
    (hg : capInvariant gcap) (hp : capInvariant pcap)
    (ht : capInvariant tcap) :
    capInvariant (ceph_add_cap existing gen cap_id issued wanted seq mseq fa).1 ∧
    capInvariant (handle_cap_grant_bits gcap sgen gseq gnew) ∧
    capInvariant (prep_cap_bits pcap used want retain) ∧
    capInvariant (export_update_tcap tcap tcid tiseq eissued) :=
  ⟨ceph_add_cap_invariant existing gen cap_id issued wanted seq mseq fa,
   handle_cap_grant_bits_invariant gcap sgen gseq gnew hg,
   prep_cap_bits_invariant pcap used want retain hp,
   export_update_tcap_invariant tcap tcid tiseq eissued ht⟩

/-- Concrete capability used in witnesses: FILE_RD issued with FILE_RD and
FILE_CACHE implemented (a cache revoke in progress). -/
def sampleCap : CephCap :=
  { issued := 2048, implemented := 3072, mds_wanted := 2048, seq := 5,
    issue_seq := 5, mseq := 2, cap_id := 7, cap_gen := 4 }

/-- Witness for C1 at a concrete input. -/
theorem C1_issued_subset_implemented_witness :
    capInvariant sampleCap ∧
    (capInvariant (ceph_add_cap (some sampleCap) 4 7 3072 2048 6 2 true).1 ∧
     capInvariant (handle_cap_grant_bits sampleCap 4 6 1024) ∧
     capInvariant (prep_cap_bits sampleCap 1 2048 3073) ∧
     capInvariant (export_update_tcap sampleCap 9 3 2048)) :=
  ⟨by decide,
   C1_issued_subset_implemented (some sampleCap) 4 7 3072 2048 6 2 true
     sampleCap 4 6 1024 sampleCap 1 2048 3073 sampleCap 9 3 2048
     (by decide) (by decide) (by decide)⟩

/-- A stale capability (its `cap_gen` lags the session generation):
FILE_RD issued and implemented. -/
def staleCap : CephCap :=
  { issued := 2048, implemented := 2048, mds_wanted := 0, seq := 5,
    issue_seq := 5, mseq := 0, cap_id := 1, cap_gen := 0 }

/-- C6 counterexample: re-applying a grant with `seq ≤ cap->seq` to a
STALE capability regresses previously observed issued bits —
`handle_cap_grant` first wipes a stale cap down to `CEPH_CAP_PIN`
(caps.c:3545-3546), so FILE_RD (2048) is lost even though the message's
seq (5) is not newer than the recorded seq (5). -/
theorem C6_counterexample :
    ceph_seq_cmp 5 staleCap.seq ≤ 0 ∧
    ¬ bitsub staleCap.issued
        (handle_cap_grant_bits staleCap 1 5 0).issued := by
  decide

/-- C6 (amended): for every capability that is NOT stale (its generation
is not behind the session's) and every grant message applied with a
sequence number `seq ≤` the capability's currently recorded seq, the
resulting issued bitset still contains every issued bit previously
observed on that capability. -/
theorem C6_grant_no_regression (cap : CephCap) (sgen seq newcaps : Nat)
    (hgen : ¬ cap.cap_gen < sgen)
    (hseq : ceph_seq_cmp seq cap.seq ≤ 0) :
    bitsub cap.issued (handle_cap_grant_bits cap sgen seq newcaps).issued := by
  unfold handle_cap_grant_bits
  dsimp only
  simp only [hgen, if_false, reduceIte, hseq, if_true]
  split
  · exact bitsub_lor_self_right _ _
  · split
    · exact bitsub_refl _
    · exact bitsub_lor_self_right _ _

/-- Witness for the amended C6 at a concrete input. -/
theorem C6_grant_no_regression_witness :
    ¬ (sampleCap.cap_gen < 4) ∧ ceph_seq_cmp 3 sampleCap.seq ≤ 0 ∧
    bitsub sampleCap.issued
      (handle_cap_grant_bits sampleCap 4 3 1024).issued :=
  ⟨by decide, by decide,
   C6_grant_no_regression sampleCap 4 3 1024 (by decide) (by decide)⟩

/-! ### Cap allocator / reservation pool (caps.c:169-412)

The four counters guarded by `caps_list_lock`.  They are C `int`s, so the
model uses `Int`. -/

structure CapPool where
  total : Int
  used : Int
  reserved : Int
  avail : Int
  min_count : Int
  deriving Repr, DecidableEq

/-- The spec's global conservation invariant:
`total == used + reserved + available`. -/
def pool_conserved (p : CapPool) : Prop :=
  p.total = p.used + p.reserved + p.avail

instance (p : CapPool) : Decidable (pool_conserved p) := by
  unfold pool_conserved; infer_instance

/-- `ceph_put_cap` (caps.c:387-412): `caps_use_count--`, then either free
the object (`caps_total_count--`) or put it back on the free list
(`caps_avail_count++`), keeping `caps_min_count` spares around. -/
def ceph_put_cap (p : CapPool) : CapPool :=
  let p1 := { p with used := p.used - 1 }
  if p1.avail ≥ p1.reserved + p1.min_count then
    { p1 with total := p1.total - 1 }
  else
    { p1 with avail := p1.avail + 1 }

/-- `__ceph_unreserve_caps` (caps.c:169-198): return `nr` unused
reservations; free them outright when the free list already holds
`caps_reserve_count + caps_min_count` spares, otherwise make them
available. -/
def ceph_unreserve_step (p : CapPool) (nr : Int) : CapPool :=
  if nr = 0 then p
  else
    let p1 := { p with reserved := p.reserved - nr }
    if p1.avail ≥ p1.reserved + p1.min_count then
      { p1 with total := p1.total - nr }
    else
      { p1 with avail := p1.avail + nr }

/-- `ceph_unreserve_caps` (caps.c:309-329): pool effect is
`__ceph_unreserve_caps(mdsc, ctx->count)`. -/
def ceph_unreserve_caps (p : CapPool) (count : Int) : CapPool :=
  ceph_unreserve_step p count

/-- `ceph_get_cap` (caps.c:331-385).  With a reservation context the cap
comes off the free list against the reservation
(`ctx->count--; caps_reserve_count--; caps_use_count++`).  Without one
(`ctx == NULL`, the import/export path) a fresh allocation is tried
first (`caps_use_count++; caps_total_count++`), falling back to the free
list (`caps_avail_count--; caps_use_count++`), or returning NULL. -/
def ceph_get_cap (p : CapPool) (has_ctx : Bool) (allocOk : Bool) : CapPool :=
  if has_ctx then
    { p with reserved := p.reserved - 1, used := p.used + 1 }
  else if allocOk then
    { p with used := p.used + 1, total := p.total + 1 }
  else if p.avail > 0 then
    { p with avail := p.avail - 1, used := p.used + 1 }
  else
    p

/-- The first locked section of `ceph_reserve_caps` (caps.c:220-230) and
its post-trim re-take (caps.c:258-272): move
`min(caps_avail_count, n)` caps from available to reserved.  Returns the
new pool and the number taken. -/
def reserve_take (p : CapPool) (n : Int) : CapPool × Int :=
  let h := if p.avail ≥ n then n else p.avail
  ({ p with avail := p.avail - h, reserved := p.reserved + h }, h)

/-- The final locked section of `ceph_reserve_caps` (caps.c:289-296):
splice the freshly allocated objects into the pool
(`caps_total_count += alloc; caps_reserve_count += alloc`). -/
def reserve_finish (p : CapPool) (alloc : Int) : CapPool :=
  { p with total := p.total + alloc, reserved := p.reserved + alloc }

/-- Pool effect of `ceph_trim_caps` during `ceph_reserve_caps`'s shortfall
handling (caps.c:241-256): each trimmed capability is released through
`__ceph_remove_cap` and ultimately returned via `ceph_put_cap`. -/
def trim_puts : Nat → CapPool → CapPool
  | 0, p => p
  | n + 1, p => trim_puts n (ceph_put_cap p)

/-- `ceph_reserve_caps` (caps.c:203-307).  `need` is the requested count;
`alloc1` is how many fresh allocations succeed before the first failure,
`trimPuts` how many capabilities the session trim returns to the pool,
and `alloc2` how many allocations succeed after the re-take.  When the
loop still cannot satisfy `need` the partial reservation is rolled back
with `__ceph_unreserve_caps(mdsc, have + alloc)` and -ENOMEM is
returned. -/
def ceph_reserve_caps (p : CapPool) (need : Int)
    (alloc1 trimPuts alloc2 : Nat) : CapPool :=
  let t1 := reserve_take p need
  let p1 := t1.1
  let have1 := t1.2
  if need - have1 ≤ (alloc1 : Int) then
    reserve_finish p1 (need - have1)
  else
    let p2 := trim_puts trimPuts p1
    let t2 := reserve_take p2 (need - have1 - alloc1)
    let p3 := t2.1
    let more := t2.2
    if need - have1 - alloc1 - more ≤ (alloc2 : Int) then
      reserve_finish p3 (need - have1 - more)
    else
      let p4 := reserve_finish p3 ((alloc1 : Int) + alloc2)
      ceph_unreserve_step p4 (have1 + more + alloc1 + alloc2)

theorem ceph_put_cap_conserved {p : CapPool} (h : pool_conserved p) :
    pool_conserved (ceph_put_cap p) := by
  unfold ceph_put_cap pool_conserved at *
  dsimp only
  split <;> dsimp only <;> omega

theorem ceph_unreserve_step_conserved {p : CapPool} (nr : Int)
    (h : pool_conserved p) : pool_conserved (ceph_unreserve_step p nr) := by
  unfold ceph_unreserve_step pool_conserved at *
  dsimp only
  split
  · exact h
  · split <;> dsimp only <;> omega

theorem ceph_get_cap_conserved {p : CapPool} (has_ctx allocOk : Bool)
    (h : pool_conserved p) : pool_conserved (ceph_get_cap p has_ctx allocOk) := by
  unfold ceph_get_cap pool_conserved at *
  split
  · dsimp only; omega
  · split
    · dsimp only; omega
    · split
      · dsimp only; omega
      · exact h

theorem reserve_take_conserved {p : CapPool} (n : Int)
    (h : pool_conserved p) : pool_conserved (reserve_take p n).1 := by
  unfold reserve_take pool_conserved at *
  dsimp only
  omega

theorem reserve_finish_conserved {p : CapPool} (alloc : Int)
    (h : pool_conserved p) : pool_conserved (reserve_finish p alloc) := by
  unfold reserve_finish pool_conserved at *
  dsimp only
  omega

theorem trim_puts_conserved (n : Nat) {p : CapPool} (h : pool_conserved p) :
    pool_conserved (trim_puts n p) := by
  induction n generalizing p with
  | zero => exact h
  | succ k ih => exact ih (ceph_put_cap_conserved h)

theorem ceph_reserve_caps_conserved {p : CapPool} (need : Int)
    (alloc1 trimPuts alloc2 : Nat) (h : pool_conserved p) :
    pool_conserved (ceph_reserve_caps p need alloc1 trimPuts alloc2) := by
  unfold ceph_reserve_caps
  dsimp only
  split
  · exact reserve_finish_conserved _ (reserve_take_conserved _ h)
  · split
    · exact reserve_finish_conserved _
        (reserve_take_conserved _ (trim_puts_conserved _
          (reserve_take_conserved _ h)))
    · exact ceph_unreserve_step_conserved _
        (reserve_finish_conserved _
          (reserve_take_conserved _ (trim_puts_conserved _
            (reserve_take_conserved _ h))))

/-- C2: after every allocator / reservation-pool operation —
`ceph_reserve_caps(need)`, `ceph_unreserve_caps`, `ceph_get_cap` (with or
without a reservation), `ceph_put_cap` — the pool counters satisfy
`total == used + reserved + available`. -/
theorem C2_pool_conservation (p : CapPool) (need count : Int)
    (alloc1 trimPuts alloc2 : Nat) (has_ctx allocOk : Bool)
    (h : pool_conserved p) :
    pool_conserved (ceph_reserve_caps p need alloc1 trimPuts alloc2) ∧
    pool_conserved (ceph_unreserve_caps p count) ∧
    pool_conserved (ceph_get_cap p has_ctx allocOk) ∧
    pool_conserved (ceph_put_cap p) :=
  ⟨ceph_reserve_caps_conserved need alloc1 trimPuts alloc2 h,
   ceph_unreserve_step_conserved count h,
   ceph_get_cap_conserved has_ctx allocOk h,
   ceph_put_cap_conserved h⟩

/-- A small conserved pool: 10 = 3 used + 2 reserved + 5 available. -/
def samplePool : CapPool :=
  { total := 10, used := 3, reserved := 2, avail := 5, min_count := 4 }

/-- Witness for C2 at a concrete pool: reserve 7 with 2 allocation
successes before a failure, 3 trimmed caps, 4 successes after. -/
theorem C2_pool_conservation_witness :
    pool_conserved samplePool ∧
    (pool_conserved (ceph_reserve_caps samplePool 7 2 3 4) ∧
     pool_conserved (ceph_unreserve_caps samplePool 2) ∧
     pool_conserved (ceph_get_cap samplePool true false) ∧
     pool_conserved (ceph_put_cap samplePool)) :=
  ⟨by decide, C2_pool_conservation samplePool 7 2 2 3 4 true false (by decide)⟩

/-! ### Flush tracker (caps.c:1777-1952, 3810-3921)

`struct ceph_cap_flush` with the fields the tracker reads: the globally
monotonic tid, the bitset being flushed, the wake obligation and the
snapshot flag.  The intrusive `i_list`/`g_list` links become positions in
two Lean lists kept in kernel order (tail insertion, tid ascending). -/

structure CapFlush where
  tid : Nat
  caps : Nat
  wake : Bool
  is_capsnap : Bool
  deriving Repr, DecidableEq

/-- The inode-side flush state: `i_dirty_caps`, `i_flushing_caps`, the
per-inode flush list `i_cap_flush_list`, membership of `i_dirty_item` /
`i_flushing_item` in their session lists, and whether
`i_prealloc_cap_flush` holds a preallocated record. -/
structure InodeFlushState where
  dirty_caps : Nat
  flushing_caps : Nat
  cap_flush_list : List CapFlush
  on_dirty_list : Bool
  on_flushing_list : Bool
  prealloc : Bool
  deriving Repr, DecidableEq

/-- The client-wide flush state: `last_cap_flush_tid`, the global ordered
list `cap_flush_list` and `num_cap_flushing`. -/
structure MdscFlushState where
  last_cap_flush_tid : Nat
  cap_flush_list : List CapFlush
  num_cap_flushing : Int
  deriving Repr, DecidableEq

/-- `__get_oldest_flush_tid` (caps.c:1857-1866): the global list's head
tid, or 0 when the list is empty. -/
def get_oldest_flush_tid (mdsc : MdscFlushState) : Nat :=
  match mdsc.cap_flush_list with
  | [] => 0
  | cf :: _ => cf.tid

/-- `__ceph_mark_dirty_caps` (caps.c:1782-1837) restricted to the flush
state.  `has_auth` is `ci->i_auth_cap != NULL`.  Returns the new state
and the number of `ihold` calls taken (the extra inode reference). -/
def ceph_mark_dirty_caps (ci : InodeFlushState) (mask : Nat)
    (has_auth : Bool) : InodeFlushState × Nat :=
  if !has_auth then (ci, 0)
  else
    let was := ci.dirty_caps
    let ci1 := { ci with dirty_caps := was ||| mask }
    if was = 0 then
      -- swap in the caller's preallocated cap_flush, join the session's
      -- dirty list, and take the extra reference if nothing is flushing
      let ci2 := { ci1 with prealloc := true, on_dirty_list := true }
      if ci.flushing_caps = 0 then (ci2, 1) else (ci2, 0)
    else (ci1, 0)

/-- `__mark_caps_flushing` (caps.c:1908-1952): move `i_dirty_caps` into
`i_flushing_caps`, assign the next client-wide tid to the preallocated
record, append it to both ordered lists, leave the dirty list and join
the session's flushing list.  Returns the updated states, the assigned
tid and the oldest outstanding tid. -/
def mark_caps_flushing (ci : InodeFlushState) (mdsc : MdscFlushState)
    (wake : Bool) : InodeFlushState × MdscFlushState × Nat × Nat :=
  let flushing := ci.dirty_caps
  let tid := mdsc.last_cap_flush_tid + 1
  let cf : CapFlush :=
    { tid := tid, caps := flushing, wake := wake, is_capsnap := false }
  let mdsc1 := { mdsc with last_cap_flush_tid := tid,
                           cap_flush_list := mdsc.cap_flush_list ++ [cf] }
  let oldest := get_oldest_flush_tid mdsc1
  let mdsc2 := if ci.on_flushing_list then mdsc1
    else { mdsc1 with num_cap_flushing := mdsc1.num_cap_flushing + 1 }
  let ci1 := { ci with flushing_caps := ci.flushing_caps ||| flushing,
                       dirty_caps := 0,
                       prealloc := false,
                       on_dirty_list := false,
                       on_flushing_list := true,
                       cap_flush_list := ci.cap_flush_list ++ [cf] }
  (ci1, mdsc2, tid, oldest)

/-- Set the wake flag on the last element of a list: the effect of
`prev->wake = true` where `prev` is the surviving entry just before the
one being detached. -/
def setLastWake : List CapFlush → List CapFlush
  | [] => []
  | [c] => [{ c with wake := true }]
  | c :: rest => c :: setLastWake rest

/-- Result of the detach loop of `handle_cap_flush_ack`
(caps.c:3828-3853): the surviving per-inode list, the detached records
(`to_remove`, in detach order), the `cleaned` bitset and the wake
obligations returned by `__detach_cap_flush_from_ci`. -/
structure ScanResult where
  kept : List CapFlush
  to_remove : List CapFlush
  cleaned : Nat
  wake_ci : Bool
  deriving Repr, DecidableEq

/-- The `list_for_each_entry_safe` loop of `handle_cap_flush_ack`
(caps.c:3828-3853) together with the inlined
`__detach_cap_flush_from_ci` (caps.c:1887-1900): records with
`tid == flush_tid` define `cleaned`; capsnaps are skipped; records with
`tid <= flush_tid` are detached, forwarding a pending wake obligation to
the surviving entry just before them (or reporting it when none); later
records subtract their caps from `cleaned`, stopping once it is empty. -/
def flush_ack_scan (flush_tid : Nat) :
    List CapFlush → List CapFlush → List CapFlush → Nat → Bool → ScanResult
  | [], kept, removed, cleaned, wake_ci =>
    ⟨kept, removed, cleaned, wake_ci⟩
  | cf :: rest, kept, removed, cleaned, wake_ci =>
    let cleaned1 := if cf.tid = flush_tid then cf.caps else cleaned
    if cf.is_capsnap then
      flush_ack_scan flush_tid rest (kept ++ [cf]) removed cleaned1 wake_ci
    else if cf.tid ≤ flush_tid then
      if cf.wake then
        if kept.isEmpty then
          flush_ack_scan flush_tid rest kept (removed ++ [cf]) cleaned1 true
        else
          flush_ack_scan flush_tid rest (setLastWake kept) (removed ++ [cf])
            cleaned1 wake_ci
      else
        flush_ack_scan flush_tid rest kept (removed ++ [cf]) cleaned1 wake_ci
    else
      let cleaned2 := cleaned1 &&& notW cf.caps
      if cleaned2 = 0 then
        ⟨kept ++ cf :: rest, removed, cleaned2, wake_ci⟩
      else
        flush_ack_scan flush_tid rest (kept ++ [cf]) removed cleaned2 wake_ci

/-- `__detach_cap_flush_from_mdsc` (caps.c:1872-1885) on the global list:
remove the record carrying `tid`, forwarding its wake obligation to the
entry just before it when one survives.  `kept` accumulates the entries
already walked past. -/
def detach_forward_go (tid : Nat) :
    List CapFlush → List CapFlush → List CapFlush × Bool
  | kept, [] => (kept, false)
  | kept, cf :: rest =>
    if cf.tid = tid then
      if cf.wake then
        if kept.isEmpty then (kept ++ rest, true)
        else (setLastWake kept ++ rest, false)
      else (kept ++ rest, false)
    else detach_forward_go tid (kept ++ [cf]) rest

def detach_forward (l : List CapFlush) (tid : Nat) : List CapFlush × Bool :=
  detach_forward_go tid [] l

/-- The `list_for_each_entry(cf, &to_remove, i_list)` loop of
`handle_cap_flush_ack` (caps.c:3868-3869): detach every removed record
from the global list, accumulating `wake_mdsc`. -/
def detach_all (g : List CapFlush) (rs : List CapFlush) (flag : Bool) :
    List CapFlush × Bool :=
  rs.foldl
    (fun (acc : List CapFlush × Bool) cf =>
      let d := detach_forward acc.1 cf.tid
      (d.1, acc.2 || d.2))
    (g, flag)

/-- Outcome of `handle_cap_flush_ack`: the updated inode and client flush
state, the two wake-up signals, and whether the extra inode reference is
dropped (`iput`). -/
structure FlushAckResult where
  ci : InodeFlushState
  mdsc : MdscFlushState
  wake_ci : Bool
  wake_mdsc : Bool
  drop : Bool
  deriving Repr, DecidableEq

/-- `handle_cap_flush_ack` (caps.c:3810-3921): run the detach loop, clear
the cleaned bits from `i_flushing_caps`, detach the removed records from
the global list, and when nothing is left flushing leave the session's
flushing list, decrement `num_cap_flushing`, and drop the extra inode
reference if the dirty set is empty as well. -/
def handle_cap_flush_ack (ci : InodeFlushState) (mdsc : MdscFlushState)
    (flush_tid : Nat) : FlushAckResult :=
  let s := flush_ack_scan flush_tid ci.cap_flush_list [] [] 0 false
  if s.to_remove.isEmpty ∧ s.cleaned = 0 then
    ⟨ci, mdsc, false, false, false⟩
  else
    let flushing' := ci.flushing_caps &&& notW s.cleaned
    let g := detach_all mdsc.cap_flush_list s.to_remove false
    if flushing' = 0 then
      ⟨{ ci with flushing_caps := 0,
                 cap_flush_list := s.kept,
                 on_flushing_list :=
                   if s.kept.isEmpty then false else ci.on_flushing_list },
       { mdsc with cap_flush_list := g.1,
                   num_cap_flushing := mdsc.num_cap_flushing - 1 },
       s.wake_ci, g.2, ci.dirty_caps == 0⟩
    else
      ⟨{ ci with flushing_caps := flushing', cap_flush_list := s.kept },
       { mdsc with cap_flush_list := g.1 },
       s.wake_ci, g.2, false⟩

/-- A flush list is tid-ordered (strictly increasing). -/
def tidSorted (l : List CapFlush) : Prop :=
  List.Pairwise (fun a b => a.tid < b.tid) l

/-- Every tid on the list is at most `bound` (the client-wide counter). -/
def tidsBelow (l : List CapFlush) (bound : Nat) : Prop :=
  ∀ cf ∈ l, cf.tid ≤ bound

instance (l : List CapFlush) : Decidable (tidSorted l) := by
  unfold tidSorted; infer_instance

instance (l : List CapFlush) (b : Nat) : Decidable (tidsBelow l b) := by
  unfold tidsBelow; infer_instance

theorem tidSorted_append_last {l : List CapFlush} {cf : CapFlush}
    (hs : tidSorted l) (hb : ∀ c ∈ l, c.tid < cf.tid) :
    tidSorted (l ++ [cf]) := by
  unfold tidSorted at *
  rw [List.pairwise_append]
  refine ⟨hs, List.pairwise_singleton _ _, ?_⟩
  intro a ha b hb'
  rw [List.mem_singleton] at hb'
  subst hb'
  exact hb a ha

/-- C5: every flush creation (`__mark_caps_flushing`) draws a strictly
larger tid than every tid already on either list from the single
client-wide counter `last_cap_flush_tid`, appends the record so that both
the per-inode and the global flush lists remain tid-ordered, and the
global oldest outstanding tid (`__get_oldest_flush_tid`: the global
list's head, or 0 when empty) does not decrease. -/
theorem C5_tid_monotonicity (ci : InodeFlushState) (mdsc : MdscFlushState)
    (wake : Bool)
    (hgs : tidSorted mdsc.cap_flush_list)
    (hcs : tidSorted ci.cap_flush_list)
    (hgb : tidsBelow mdsc.cap_flush_list mdsc.last_cap_flush_tid)
    (hcb : tidsBelow ci.cap_flush_list mdsc.last_cap_flush_tid) :
    (∀ cf ∈ mdsc.cap_flush_list,
       cf.tid < (mark_caps_flushing ci mdsc wake).2.2.1) ∧
    (∀ cf ∈ ci.cap_flush_list,
       cf.tid < (mark_caps_flushing ci mdsc wake).2.2.1) ∧
    (mark_caps_flushing ci mdsc wake).2.1.last_cap_flush_tid =
      (mark_caps_flushing ci mdsc wake).2.2.1 ∧
    tidSorted (mark_caps_flushing ci mdsc wake).2.1.cap_flush_list ∧
    tidSorted (mark_caps_flushing ci mdsc wake).1.cap_flush_list ∧
    tidsBelow (mark_caps_flushing ci mdsc wake).2.1.cap_flush_list
      (mark_caps_flushing ci mdsc wake).2.1.last_cap_flush_tid ∧
    tidsBelow (mark_caps_flushing ci mdsc wake).1.cap_flush_list
      (mark_caps_flushing ci mdsc wake).2.1.last_cap_flush_tid ∧
    get_oldest_flush_tid mdsc ≤
      get_oldest_flush_tid (mark_caps_flushing ci mdsc wake).2.1 := by
  have hlt_g : ∀ cf ∈ mdsc.cap_flush_list,
      cf.tid < mdsc.last_cap_flush_tid + 1 := by
    intro cf h; exact Nat.lt_succ_of_le (hgb cf h)
  have hlt_c : ∀ cf ∈ ci.cap_flush_list,
      cf.tid < mdsc.last_cap_flush_tid + 1 := by
    intro cf h; exact Nat.lt_succ_of_le (hcb cf h)
  unfold mark_caps_flushing
  dsimp only
  refine ⟨hlt_g, hlt_c, ?_, ?_, ?_, ?_, ?_, ?_⟩
  · split <;> rfl
  · have hap := @tidSorted_append_last mdsc.cap_flush_list
      { tid := mdsc.last_cap_flush_tid + 1, caps := ci.dirty_caps,
        wake := wake, is_capsnap := false } hgs hlt_g
    split <;> exact hap
  · exact tidSorted_append_last hcs hlt_c
  · have hbel : tidsBelow (mdsc.cap_flush_list ++
        [{ tid := mdsc.last_cap_flush_tid + 1, caps := ci.dirty_caps,
           wake := wake, is_capsnap := false }])
        (mdsc.last_cap_flush_tid + 1) := by
      intro cf h
      rcases List.mem_append.mp h with h' | h'
      · exact Nat.le_of_lt (hlt_g cf h')
      · rw [List.mem_singleton] at h'; subst h'; exact Nat.le_refl _
    split <;> exact hbel
  · intro cf h
    rcases List.mem_append.mp h with h' | h'
    · refine Nat.le_of_lt ?_
      have hx := hlt_c cf h'
      split <;> exact hx
    · rw [List.mem_singleton] at h'; subst h'
      split <;> exact Nat.le_refl _
  · split <;>
      cases hml : mdsc.cap_flush_list <;>
        simp [get_oldest_flush_tid, hml]

theorem land_notW_self {a : Nat} (h : a < 2 ^ capWidth) :
    a &&& notW a = 0 := by
  apply Nat.eq_of_testBit_eq
  intro i
  simp only [Nat.testBit_and, notW, Nat.testBit_xor, testBit_fullMask,
    Nat.zero_testBit]
  by_cases hi : i < capWidth
  · simp only [decide_eq_true hi]
    cases a.testBit i <;> rfl
  · have hb : a.testBit i = false := by
      apply Nat.testBit_eq_false_of_lt
      calc a < 2 ^ capWidth := h
        _ ≤ 2 ^ i := Nat.pow_le_pow_right (by norm_num) (Nat.le_of_not_lt hi)
    simp [hb]

theorem detach_forward_go_append_last (tid : Nat) (cf : CapFlush)
    (hcf : cf.tid = tid) (hw : cf.wake = false) :
    ∀ (g kept : List CapFlush), (∀ x ∈ g, x.tid ≠ tid) →
      detach_forward_go tid kept (g ++ [cf]) = (kept ++ g, false)
  | [], kept, _ => by
      simp [detach_forward_go, hcf, hw]
  | x :: g', kept, hg => by
      have hx : x.tid ≠ tid := hg x (List.mem_cons_self _ _)
      have ih := detach_forward_go_append_last tid cf hcf hw g' (kept ++ [x])
        (fun y hy => hg y (List.mem_cons_of_mem _ hy))
      simp only [List.cons_append, detach_forward_go, hx, if_false, ite_false,
        reduceIte, List.append_eq]
      rw [ih]
      simp

/-- The round trip of C4: dirty a clean inode
(`__ceph_mark_dirty_caps`), move the dirty set into flight
(`__mark_caps_flushing`), then apply the flush acknowledgment for the
exact assigned tid (`handle_cap_flush_ack`).  Returns the number of extra
inode references taken by the dirtying together with the ack's
outcome. -/
def dirty_flush_ack_roundtrip (ci0 : InodeFlushState) (mdsc : MdscFlushState)
    (mask : Nat) : Nat × FlushAckResult :=
  let d := ceph_mark_dirty_caps ci0 mask true
  let m := mark_caps_flushing d.1 mdsc false
  (d.2, handle_cap_flush_ack m.1 m.2.1 m.2.2.1)

/-- C4: on a clean inode the first dirtying takes exactly one extra inode
reference, and the flush-ack for the exact assigned tid covering the
dirtied bits drives `dirty_caps` and `flushing_caps` to empty, removes
the inode from the dirty and flushing indices, restores the global flush
state, and releases the extra reference exactly once (`drop`). -/
theorem C4_dirty_flush_ack_roundtrip (ci0 : InodeFlushState)
    (mdsc : MdscFlushState) (mask : Nat)
    (h1 : ci0.dirty_caps = 0) (h2 : ci0.flushing_caps = 0)
    (h3 : ci0.cap_flush_list = []) (h4 : ci0.on_dirty_list = false)
    (h5 : ci0.on_flushing_list = false)
    (hmask : mask < 2 ^ capWidth)
    (hg : tidsBelow mdsc.cap_flush_list mdsc.last_cap_flush_tid) :
    (dirty_flush_ack_roundtrip ci0 mdsc mask).1 = 1 ∧
    (dirty_flush_ack_roundtrip ci0 mdsc mask).2.drop = true ∧
    (dirty_flush_ack_roundtrip ci0 mdsc mask).2.ci.dirty_caps = 0 ∧
    (dirty_flush_ack_roundtrip ci0 mdsc mask).2.ci.flushing_caps = 0 ∧
    (dirty_flush_ack_roundtrip ci0 mdsc mask).2.ci.cap_flush_list = [] ∧
    (dirty_flush_ack_roundtrip ci0 mdsc mask).2.ci.on_dirty_list = false ∧
    (dirty_flush_ack_roundtrip ci0 mdsc mask).2.ci.on_flushing_list = false ∧
    (dirty_flush_ack_roundtrip ci0 mdsc mask).2.mdsc.cap_flush_list =
      mdsc.cap_flush_list ∧
    (dirty_flush_ack_roundtrip ci0 mdsc mask).2.mdsc.num_cap_flushing =
      mdsc.num_cap_flushing := by
  have htid : ∀ x ∈ mdsc.cap_flush_list,
      x.tid ≠ mdsc.last_cap_flush_tid + 1 := by
    intro x hx
    have := hg x hx
    omega
  have hdet := detach_forward_go_append_last (mdsc.last_cap_flush_tid + 1)
    { tid := mdsc.last_cap_flush_tid + 1, caps := mask, wake := false,
      is_capsnap := false } rfl rfl mdsc.cap_flush_list [] htid
  have hnot : mask &&& notW mask = 0 := land_notW_self hmask
  unfold dirty_flush_ack_roundtrip
  simp only [ceph_mark_dirty_caps, mark_caps_flushing, handle_cap_flush_ack,
    flush_ack_scan, h1, h2, h3, h4, h5, Nat.zero_or, Bool.not_true,
    Bool.false_eq_true, if_false, if_true, reduceIte, List.nil_append]
  simp [hnot, detach_all, detach_forward, hdet]

/-- Client flush state with counter 41 and one outstanding flush. -/
def sampleMdsc : MdscFlushState :=
  { last_cap_flush_tid := 41,
    cap_flush_list := [{ tid := 40, caps := 8, wake := false,
                         is_capsnap := false }],
    num_cap_flushing := 1 }

/-- A dirty inode about to flush an exclusive-metadata bit. -/
def sampleCi : InodeFlushState :=
  { dirty_caps := 512, flushing_caps := 0, cap_flush_list := [],
    on_dirty_list := true, on_flushing_list := false, prealloc := true }

/-! ### The C3 detach/forward characterisation

The kernel keeps one `ceph_cap_flush` object on both the per-inode and the
global list; the model keeps one copy per list.  The immutable projection
`projTCS` (tid, caps, snapshot flag) identifies a record across both. -/

def projTCS (cf : CapFlush) : Nat × Nat × Bool := (cf.tid, cf.caps, cf.is_capsnap)

/-- A record survives the ack for tid `T` iff it is a capsnap or is later
than `T` (caps.c:3834-3852). -/
def survivesAck (T : Nat) (cf : CapFlush) : Bool :=
  cf.is_capsnap || decide (T < cf.tid)

/-- A record is detached by the ack for tid `T` iff it is a non-snapshot
record with `tid ≤ T`. -/
def detachedByAck (T : Nat) (cf : CapFlush) : Bool :=
  !cf.is_capsnap && decide (cf.tid ≤ T)

theorem setLastWake_map_proj (l : List CapFlush) :
    (setLastWake l).map projTCS = l.map projTCS := by
  induction l with
  | nil => rfl
  | cons c rest ih =>
    cases rest with
    | nil => rfl
    | cons d rest' =>
      simp only [setLastWake, List.map_cons] at ih ⊢
      rw [ih]

theorem mem_setLastWake_tid :
    ∀ {l : List CapFlush} {x : CapFlush}, x ∈ setLastWake l →
      ∃ y ∈ l, x.tid = y.tid := by
  intro l
  induction l with
  | nil => intro x h; simp [setLastWake] at h
  | cons c rest ih =>
    intro x h
    cases rest with
    | nil =>
      simp only [setLastWake, List.mem_singleton] at h
      exact ⟨c, List.mem_cons_self _ _, by rw [h]⟩
    | cons d rest' =>
      simp only [setLastWake, List.mem_cons] at h
      rcases h with h | h
      · exact ⟨c, List.mem_cons_self _ _, by rw [h]⟩
      · rcases ih h with ⟨y, hy, hxy⟩
        exact ⟨y, List.mem_cons_of_mem _ hy, hxy⟩

theorem mem_setLastWake_wake :
    ∀ {l : List CapFlush} {c : CapFlush}, c ∈ l → c.wake = true →
      ∃ c' ∈ setLastWake l, c'.wake = true ∧ c'.tid = c.tid := by
  intro l
  induction l with
  | nil => intro c h; simp at h
  | cons a rest ih =>
    intro c h hw
    cases rest with
    | nil =>
      rw [List.mem_singleton] at h
      subst h
      exact ⟨{ c with wake := true }, List.mem_singleton_self _, rfl, rfl⟩
    | cons d rest' =>
      rw [List.mem_cons] at h
      rcases h with h | h
      · subst h
        exact ⟨c, List.mem_cons_self _ _, hw, rfl⟩
      · rcases ih h hw with ⟨c', hc', hcw, hct⟩
        exact ⟨c', List.mem_cons_of_mem _ hc', hcw, hct⟩

theorem setLastWake_exists_wake :
    ∀ (l : List CapFlush), l ≠ [] →
      ∃ c' ∈ setLastWake l, c'.wake = true ∧ ∃ y ∈ l, c'.tid = y.tid := by
  intro l
  induction l with
  | nil => intro h; exact absurd rfl h
  | cons c rest ih =>
    intro _
    cases rest with
    | nil =>
      exact ⟨{ c with wake := true }, List.mem_singleton_self _, rfl,
        c, List.mem_cons_self _ _, rfl⟩
    | cons d rest' =>
      rcases ih (by simp) with ⟨c', hc', hcw, y, hy, hyt⟩
      exact ⟨c', List.mem_cons_of_mem _ hc', hcw,
        y, List.mem_cons_of_mem _ hy, hyt⟩

theorem detach_forward_go_spec (t : Nat) :
    ∀ (l kept : List CapFlush),
      List.Pairwise (fun a b => a.tid < b.tid) l →
      (∀ x ∈ kept, ∀ y ∈ l, x.tid < y.tid) →
      ((detach_forward_go t kept l).1.map projTCS =
        kept.map projTCS ++
          (l.filter (fun c => decide (c.tid ≠ t))).map projTCS) ∧
      ((∃ r ∈ l, r.tid = t ∧ r.wake = true) →
        (detach_forward_go t kept l).2 = true ∨
        ∃ c ∈ (detach_forward_go t kept l).1, c.wake = true ∧ c.tid < t) ∧
      (∀ x, (x ∈ kept ∨ x ∈ l) → x.wake = true → x.tid ≠ t →
        ∃ c ∈ (detach_forward_go t kept l).1, c.wake = true ∧ c.tid = x.tid) := by
  intro l
  induction l with
  | nil =>
    intro kept _ _
    refine ⟨by simp [detach_forward_go], ?_, ?_⟩
    · rintro ⟨r, hr, -⟩; simp at hr
    · intro x hx hw _
      rcases hx with hx | hx
      · exact ⟨x, by simpa [detach_forward_go] using hx, hw, rfl⟩
      · simp at hx
  | cons cf rest ih =>
    intro kept hs hk
    have hrest : List.Pairwise (fun a b => a.tid < b.tid) rest := hs.tail
    have hcf_lt : ∀ y ∈ rest, cf.tid < y.tid := by
      intro y hy
      exact List.rel_of_pairwise_cons hs hy
    by_cases ht : cf.tid = t
    · -- record found: remove it, forwarding its wake
      by_cases hw : cf.wake = true
      · by_cases hke : kept.isEmpty
        · have hkeq : kept = [] := List.isEmpty_iff.mp hke
          subst hkeq
          refine ⟨?_, ?_, ?_⟩
          · simp only [detach_forward_go, ht, if_true, hw, reduceIte,
              List.isEmpty_nil, List.nil_append, List.map_nil, List.filter_cons]
            have hfr : List.filter (fun c => !decide (c.tid = t)) rest = rest := by
              apply List.filter_eq_self.mpr
              intro a ha
              have hlt := hcf_lt a ha
              have hne : a.tid ≠ t := by omega
              simp [hne]
            simp [hfr]
          · intro _
            left
            simp [detach_forward_go, ht, hw]
          · intro x hx hxw hxt
            rcases hx with hx | hx
            · simp at hx
            · rw [List.mem_cons] at hx
              rcases hx with hx | hx
              · subst hx; exact absurd ht hxt
              · refine ⟨x, ?_, hxw, rfl⟩
                simp [detach_forward_go, ht, hw, hx]
        · refine ⟨?_, ?_, ?_⟩
          · simp only [detach_forward_go, ht, if_true, hw, reduceIte, hke,
              Bool.false_eq_true, List.map_append, setLastWake_map_proj,
              List.filter_cons]
            have hfr : List.filter (fun c => !decide (c.tid = t)) rest = rest := by
              apply List.filter_eq_self.mpr
              intro a ha
              have hlt := hcf_lt a ha
              have hne : a.tid ≠ t := by omega
              simp [hne]
            simp [hfr]
          · intro _
            right
            have hkne : kept ≠ [] := by
              intro h; rw [h] at hke; exact hke (by rfl)
            rcases setLastWake_exists_wake kept hkne with ⟨c, hc, hcw, y, hy, hyt⟩
            refine ⟨c, ?_, hcw, ?_⟩
            · simp only [detach_forward_go, ht, if_true, hw, reduceIte, hke,
                Bool.false_eq_true]
              exact List.mem_append_left _ hc
            · rw [hyt, ← ht]
              exact hk y hy cf (List.mem_cons_self _ _)
          · intro x hx hxw hxt
            rcases hx with hx | hx
            · rcases mem_setLastWake_wake hx hxw with ⟨c, hc, hcw, hct⟩
              refine ⟨c, ?_, hcw, hct⟩
              simp only [detach_forward_go, ht, if_true, hw, reduceIte, hke,
                Bool.false_eq_true]
              exact List.mem_append_left _ hc
            · rw [List.mem_cons] at hx
              rcases hx with hx | hx
              · subst hx; exact absurd ht hxt
              · refine ⟨x, ?_, hxw, rfl⟩
                simp only [detach_forward_go, ht, if_true, hw, reduceIte, hke,
                  Bool.false_eq_true]
                exact List.mem_append_right _ hx
      · have hwf : cf.wake = false := Bool.eq_false_iff.mpr hw
        refine ⟨?_, ?_, ?_⟩
        · simp only [detach_forward_go, ht, if_true, hwf, Bool.false_eq_true,
            reduceIte, List.map_append, List.filter_cons]
          have hfr : List.filter (fun c => !decide (c.tid = t)) rest = rest := by
            apply List.filter_eq_self.mpr
            intro a ha
            have hlt := hcf_lt a ha
            have hne : a.tid ≠ t := by omega
            simp [hne]
          simp [hfr]
        · rintro ⟨r, hr, hrt, hrw⟩
          rw [List.mem_cons] at hr
          rcases hr with hr | hr
          · subst hr; rw [hrw] at hwf; exact absurd hwf (by simp)
          · have := hcf_lt r hr
            rw [hrt, ht] at this
            omega
        · intro x hx hxw hxt
          rcases hx with hx | hx
          · refine ⟨x, ?_, hxw, rfl⟩
            simp only [detach_forward_go, ht, if_true, hwf, Bool.false_eq_true,
              reduceIte]
            exact List.mem_append_left _ hx
          · rw [List.mem_cons] at hx
            rcases hx with hx | hx
            · subst hx; exact absurd ht hxt
            · refine ⟨x, ?_, hxw, rfl⟩
              simp only [detach_forward_go, ht, if_true, hwf, Bool.false_eq_true,
                reduceIte]
              exact List.mem_append_right _ hx
    · -- not the record: walk past it
      have hk' : ∀ x ∈ kept ++ [cf], ∀ y ∈ rest, x.tid < y.tid := by
        intro x hx y hy
        rcases List.mem_append.mp hx with hx | hx
        · exact hk x hx y (List.mem_cons_of_mem _ hy)
        · rw [List.mem_singleton] at hx
          subst hx
          exact hcf_lt y hy
      rcases ih (kept ++ [cf]) hrest hk' with ⟨ih1, ih2, ih3⟩
      have hstep : detach_forward_go t kept (cf :: rest) =
          detach_forward_go t (kept ++ [cf]) rest := by
        simp [detach_forward_go, ht]
      refine ⟨?_, ?_, ?_⟩
      · rw [hstep, ih1]
        simp only [List.filter_cons]
        have : (decide (cf.tid ≠ t)) = true := by simp [ht]
        rw [this]
        simp [List.append_assoc]
      · rintro ⟨r, hr, hrt, hrw⟩
        rw [List.mem_cons] at hr
        rcases hr with hr | hr
        · subst hr; exact absurd hrt ht
        · rw [hstep]
          exact ih2 ⟨r, hr, hrt, hrw⟩
      · intro x hx hxw hxt
        rw [hstep]
        rcases hx with hx | hx
        · exact ih3 x (Or.inl (List.mem_append_left _ hx)) hxw hxt
        · rw [List.mem_cons] at hx
          rcases hx with hx | hx
          · subst hx
            exact ih3 x (Or.inl (List.mem_append_right _ (List.mem_singleton_self _))) hxw hxt
          · exact ih3 x (Or.inr hx) hxw hxt

theorem filter_map_proj_congr (q : CapFlush → Bool)
    (hq : ∀ c₁ c₂ : CapFlush, projTCS c₁ = projTCS c₂ → q c₁ = q c₂) :
    ∀ {l₁ l₂ : List CapFlush}, l₁.map projTCS = l₂.map projTCS →
      (l₁.filter q).map projTCS = (l₂.filter q).map projTCS := by
  intro l₁
  induction l₁ with
  | nil =>
    intro l₂ h
    rw [List.map_nil] at h
    rw [List.map_eq_nil_iff.mp h.symm]
  | cons c₁ r₁ ih =>
    intro l₂ h
    cases l₂ with
    | nil => simp at h
    | cons c₂ r₂ =>
      rw [List.map_cons, List.map_cons, List.cons.injEq] at h
      rcases h with ⟨hc, hr⟩
      rw [List.filter_cons, List.filter_cons, hq c₁ c₂ hc]
      by_cases h2 : q c₂ = true
      · rw [h2]
        simp only [if_true, reduceIte, List.map_cons, hc, ih hr]
      · rw [Bool.eq_false_iff.mpr h2]
        simp only [Bool.false_eq_true, if_false, reduceIte, ih hr]

theorem tid_map_of_proj_eq {l₁ l₂ : List CapFlush}
    (h : l₁.map projTCS = l₂.map projTCS) :
    l₁.map (fun c => c.tid) = l₂.map (fun c => c.tid) := by
  have h' := congrArg (List.map Prod.fst) h
  simpa [List.map_map, Function.comp, projTCS] using h'

theorem tidSorted_of_proj_eq {l₁ l₂ : List CapFlush}
    (h : l₁.map projTCS = l₂.map projTCS) (hs : tidSorted l₂) :
    tidSorted l₁ := by
  unfold tidSorted at *
  have hp : List.Pairwise (· < ·) (l₂.map (fun c => c.tid)) :=
    List.pairwise_map.mpr hs
  rw [← tid_map_of_proj_eq h] at hp
  exact List.pairwise_map.mp hp

theorem detach_all_spec :
    ∀ (rs g : List CapFlush) (flag : Bool),
      tidSorted g →
      List.Pairwise (fun a b => a.tid < b.tid) rs →
      ((detach_all g rs flag).1.map projTCS =
        (g.filter
          (fun c => decide (c.tid ∉ rs.map CapFlush.tid))).map projTCS) ∧
      (flag = true → (detach_all g rs flag).2 = true) ∧
      (∀ x ∈ g, x.wake = true → x.tid ∈ rs.map CapFlush.tid →
        (detach_all g rs flag).2 = true ∨
        ∃ c ∈ (detach_all g rs flag).1, c.wake = true ∧ c.tid < x.tid) ∧
      (∀ x ∈ g, x.wake = true → x.tid ∉ rs.map CapFlush.tid →
        ∃ c ∈ (detach_all g rs flag).1, c.wake = true ∧ c.tid = x.tid) := by
  intro rs
  induction rs with
  | nil =>
    intro g flag _ _
    refine ⟨?_, fun h => h, ?_, ?_⟩
    · simp [detach_all]
    · intro x _ _ hx
      simp at hx
    · intro x hx hw _
      exact ⟨x, by simpa [detach_all] using hx, hw, rfl⟩
  | cons r rs' ih =>
    intro g flag hgs hrs
    have hstep : detach_all g (r :: rs') flag =
        detach_all (detach_forward g r.tid).1 rs'
          (flag || (detach_forward g r.tid).2) := by
      simp [detach_all]
    rcases detach_forward_go_spec r.tid g [] hgs (by intro x hx; simp at hx)
      with ⟨d1, d2, d3⟩
    rw [List.map_nil, List.nil_append] at d1
    rw [show detach_forward_go r.tid [] g = detach_forward g r.tid from rfl]
      at d1 d2 d3
    have hd1s : tidSorted (detach_forward g r.tid).1 := by
      refine tidSorted_of_proj_eq d1 ?_
      exact List.Pairwise.filter _ hgs
    have hrs' : List.Pairwise (fun a b => a.tid < b.tid) rs' := hrs.tail
    have hrlt : ∀ y ∈ rs', r.tid < y.tid := by
      intro y hy
      exact List.rel_of_pairwise_cons hrs hy
    rcases ih (detach_forward g r.tid).1 (flag || (detach_forward g r.tid).2)
      hd1s hrs' with ⟨ih1, ih2, ih3, ih4⟩
    refine ⟨?_, ?_, ?_, ?_⟩
    · rw [hstep, ih1]
      have hcongr := filter_map_proj_congr
        (fun c => decide (c.tid ∉ rs'.map CapFlush.tid))
        (fun c₁ c₂ hc => by
          have ht : c₁.tid = c₂.tid := congrArg Prod.fst hc
          show decide (c₁.tid ∉ rs'.map CapFlush.tid) =
            decide (c₂.tid ∉ rs'.map CapFlush.tid)
          rw [ht]) d1
      rw [hcongr, List.filter_filter]
      apply congrArg
      apply List.filter_congr
      intro c _
      by_cases h1 : c.tid = r.tid <;>
        by_cases h2 : c.tid ∈ rs'.map CapFlush.tid <;>
          simp [h1, h2]
    · intro hf
      rw [hstep]
      exact ih2 (by rw [hf]; rfl)
    · intro x hx hw hmem
      rw [List.map_cons, List.mem_cons] at hmem
      rw [hstep]
      by_cases hxr : x.tid = r.tid
      · rcases d2 ⟨x, hx, hxr, hw⟩ with hdw | ⟨c, hc, hcw, hct⟩
        · left
          exact ih2 (by rw [hdw, Bool.or_true])
        · have hcnot : c.tid ∉ rs'.map CapFlush.tid := by
            intro hcm
            rcases List.mem_map.mp hcm with ⟨y, hy, hyt⟩
            have := hrlt y hy
            omega
          rcases ih4 c hc hcw hcnot with ⟨c', hc', hcw', hct'⟩
          right
          exact ⟨c', hc', hcw', by omega⟩
      · have hxm : x.tid ∈ rs'.map CapFlush.tid := by
          rcases hmem with h | h
          · exact absurd h hxr
          · exact h
        rcases d3 x (Or.inr hx) hw hxr with ⟨c₁, hc₁, hc₁w, hc₁t⟩
        rcases ih3 c₁ hc₁ hc₁w (by rw [hc₁t]; exact hxm) with h | ⟨c', hc', hcw', hct'⟩
        · exact Or.inl h
        · right
          exact ⟨c', hc', hcw', by omega⟩
    · intro x hx hw hmem
      rw [List.map_cons, List.mem_cons] at hmem
      push_neg at hmem
      rw [hstep]
      rcases d3 x (Or.inr hx) hw hmem.1 with ⟨c₁, hc₁, hc₁w, hc₁t⟩
      rcases ih4 c₁ hc₁ hc₁w (by rw [hc₁t]; exact hmem.2) with ⟨c', hc', hcw', hct'⟩
      exact ⟨c', hc', hcw', by omega⟩

theorem flush_ack_scan_spec (T : Nat) :
    ∀ (l kept removed : List CapFlush) (cleaned : Nat) (w : Bool),
      List.Pairwise (fun a b => a.tid < b.tid) l →
      (∀ x ∈ kept, ∀ y ∈ l, x.tid < y.tid) →
      ((flush_ack_scan T l kept removed cleaned w).kept.map projTCS =
        kept.map projTCS ++ (l.filter (survivesAck T)).map projTCS) ∧
      ((flush_ack_scan T l kept removed cleaned w).to_remove =
        removed ++ l.filter (detachedByAck T)) ∧
      (w = true → (flush_ack_scan T l kept removed cleaned w).wake_ci = true) ∧
      (∀ c ∈ kept, c.wake = true →
        ∃ c' ∈ (flush_ack_scan T l kept removed cleaned w).kept,
          c'.wake = true ∧ c'.tid = c.tid) ∧
      (∀ cf ∈ l, detachedByAck T cf = true → cf.wake = true →
        (flush_ack_scan T l kept removed cleaned w).wake_ci = true ∨
        ∃ c ∈ (flush_ack_scan T l kept removed cleaned w).kept,
          c.wake = true ∧ c.tid < cf.tid) := by
  intro l
  induction l with
  | nil =>
    intro kept removed cleaned w _ _
    refine ⟨by simp [flush_ack_scan], by simp [flush_ack_scan],
      fun h => by simpa [flush_ack_scan] using h, ?_, ?_⟩
    · intro c hc hw
      exact ⟨c, by simpa [flush_ack_scan] using hc, hw, rfl⟩
    · intro cf hcf
      simp at hcf
  | cons cf rest ihl =>
    intro kept removed cleaned w hs hk
    have hrest : List.Pairwise (fun a b => a.tid < b.tid) rest := hs.tail
    have hcf_lt : ∀ y ∈ rest, cf.tid < y.tid := by
      intro y hy
      exact List.rel_of_pairwise_cons hs hy
    by_cases hsnap : cf.is_capsnap = true
    · -- capsnap: skipped, survives
      have hstep : flush_ack_scan T (cf :: rest) kept removed cleaned w =
          flush_ack_scan T rest (kept ++ [cf]) removed
            (if cf.tid = T then cf.caps else cleaned) w := by
        simp [flush_ack_scan, hsnap]
      have hk' : ∀ x ∈ kept ++ [cf], ∀ y ∈ rest, x.tid < y.tid := by
        intro x hx y hy
        rcases List.mem_append.mp hx with hx | hx
        · exact hk x hx y (List.mem_cons_of_mem _ hy)
        · rw [List.mem_singleton] at hx; subst hx; exact hcf_lt y hy
      rcases ihl (kept ++ [cf]) removed
        (if cf.tid = T then cf.caps else cleaned) w hrest hk'
        with ⟨ih1, ih2, ih3, ih4, ih5⟩
      have hsv : survivesAck T cf = true := by simp [survivesAck, hsnap]
      have hdt : detachedByAck T cf = false := by simp [detachedByAck, hsnap]
      refine ⟨?_, ?_, ?_, ?_, ?_⟩
      · rw [hstep, ih1, List.filter_cons, hsv]
        simp [List.append_assoc]
      · rw [hstep, ih2, List.filter_cons, hdt]
        simp
      · intro hw; rw [hstep]; exact ih3 hw
      · intro c hc hw
        rw [hstep]
        exact ih4 c (List.mem_append_left _ hc) hw
      · intro x hx hxd hxw
        rw [hstep]
        rw [List.mem_cons] at hx
        rcases hx with hx | hx
        · subst hx; rw [hxd] at hdt; exact absurd hdt (by simp)
        · exact ih5 x hx hxd hxw
    · by_cases htle : cf.tid ≤ T
      · -- non-snapshot record with tid ≤ T: detached
        have hsv : survivesAck T cf = false := by
          simp [survivesAck, hsnap]
          omega
        have hdt : detachedByAck T cf = true := by
          simp [detachedByAck, hsnap]
          omega
        by_cases hw : cf.wake = true
        · by_cases hke : kept.isEmpty = true
          · have hkeq : kept = [] := List.isEmpty_iff.mp hke
            subst hkeq
            have hstep : flush_ack_scan T (cf :: rest) [] removed cleaned w =
                flush_ack_scan T rest [] (removed ++ [cf])
                  (if cf.tid = T then cf.caps else cleaned) true := by
              simp [flush_ack_scan, hsnap, htle, hw]
            rcases ihl [] (removed ++ [cf])
              (if cf.tid = T then cf.caps else cleaned) true hrest
              (by intro x hx; simp at hx)
              with ⟨ih1, ih2, ih3, ih4, ih5⟩
            refine ⟨?_, ?_, ?_, ?_, ?_⟩
            · rw [hstep, ih1, List.filter_cons, hsv]
              simp
            · rw [hstep, ih2, List.filter_cons, hdt]
              simp
            · intro _; rw [hstep]; exact ih3 rfl
            · intro c hc; simp at hc
            · intro x hx hxd hxw
              rw [hstep]
              rw [List.mem_cons] at hx
              rcases hx with hx | hx
              · exact Or.inl (ih3 rfl)
              · exact ih5 x hx hxd hxw
          · have hstep : flush_ack_scan T (cf :: rest) kept removed cleaned w =
                flush_ack_scan T rest (setLastWake kept) (removed ++ [cf])
                  (if cf.tid = T then cf.caps else cleaned) w := by
              simp [flush_ack_scan, hsnap, htle, hw, hke]
            have hk' : ∀ x ∈ setLastWake kept, ∀ y ∈ rest, x.tid < y.tid := by
              intro x hx y hy
              rcases mem_setLastWake_tid hx with ⟨z, hz, hzt⟩
              rw [hzt]
              exact hk z hz y (List.mem_cons_of_mem _ hy)
            rcases ihl (setLastWake kept) (removed ++ [cf])
              (if cf.tid = T then cf.caps else cleaned) w hrest hk'
              with ⟨ih1, ih2, ih3, ih4, ih5⟩
            refine ⟨?_, ?_, ?_, ?_, ?_⟩
            · rw [hstep, ih1, List.filter_cons, hsv, setLastWake_map_proj]
              simp
            · rw [hstep, ih2, List.filter_cons, hdt]
              simp
            · intro hwc; rw [hstep]; exact ih3 hwc
            · intro c hc hcw
              rw [hstep]
              rcases mem_setLastWake_wake hc hcw with ⟨c₁, hc₁, hc₁w, hc₁t⟩
              rcases ih4 c₁ hc₁ hc₁w with ⟨c', hc', hcw', hct'⟩
              exact ⟨c', hc', hcw', by omega⟩
            · intro x hx hxd hxw
              rw [hstep]
              rw [List.mem_cons] at hx
              rcases hx with hx | hx
              · subst hx
                have hkne : kept ≠ [] := by
                  intro h; rw [h] at hke; exact hke rfl
                rcases setLastWake_exists_wake kept hkne
                  with ⟨c₁, hc₁, hc₁w, y, hy, hyt⟩
                rcases ih4 c₁ hc₁ hc₁w with ⟨c', hc', hcw', hct'⟩
                right
                refine ⟨c', hc', hcw', ?_⟩
                have := hk y hy x (List.mem_cons_self _ _)
                omega
              · exact ih5 x hx hxd hxw
        · have hwf : cf.wake = false := Bool.eq_false_iff.mpr hw
          have hstep : flush_ack_scan T (cf :: rest) kept removed cleaned w =
              flush_ack_scan T rest kept (removed ++ [cf])
                (if cf.tid = T then cf.caps else cleaned) w := by
            simp [flush_ack_scan, hsnap, htle, hwf]
          have hk' : ∀ x ∈ kept, ∀ y ∈ rest, x.tid < y.tid := by
            intro x hx y hy
            exact hk x hx y (List.mem_cons_of_mem _ hy)
          rcases ihl kept (removed ++ [cf])
            (if cf.tid = T then cf.caps else cleaned) w hrest hk'
            with ⟨ih1, ih2, ih3, ih4, ih5⟩
          refine ⟨?_, ?_, ?_, ?_, ?_⟩
          · rw [hstep, ih1, List.filter_cons, hsv]
            simp
          · rw [hstep, ih2, List.filter_cons, hdt]
            simp
          · intro hwc; rw [hstep]; exact ih3 hwc
          · intro c hc hcw
            rw [hstep]
            exact ih4 c hc hcw
          · intro x hx hxd hxw
            rw [hstep]
            rw [List.mem_cons] at hx
            rcases hx with hx | hx
            · subst hx; rw [hxw] at hwf; exact absurd hwf (by simp)
            · exact ih5 x hx hxd hxw
      · -- tid > T: survives; subtract caps from cleaned, maybe break
        have hTlt : T < cf.tid := Nat.lt_of_not_le htle
        have hsv : survivesAck T cf = true := by
          simp [survivesAck]
          omega
        have hall_sv : ∀ y ∈ cf :: rest, survivesAck T y = true := by
          intro y hy
          rw [List.mem_cons] at hy
          rcases hy with hy | hy
          · subst hy; exact hsv
          · have := hcf_lt y hy
            simp [survivesAck]
            omega
        have hall_dt : ∀ y ∈ cf :: rest, ¬ detachedByAck T y = true := by
          intro y hy
          rw [List.mem_cons] at hy
          have hyt : T < y.tid := by
            rcases hy with hy | hy
            · subst hy; exact hTlt
            · have := hcf_lt y hy; omega
          simp [detachedByAck]
          omega
        by_cases hcl : (if cf.tid = T then cf.caps else cleaned) &&&
            notW cf.caps = 0
        · have hstep : flush_ack_scan T (cf :: rest) kept removed cleaned w =
              ⟨kept ++ cf :: rest, removed,
               (if cf.tid = T then cf.caps else cleaned) &&& notW cf.caps,
               w⟩ := by
            simp [flush_ack_scan, hsnap, htle, hcl]
          refine ⟨?_, ?_, ?_, ?_, ?_⟩
          · rw [hstep]
            have : (cf :: rest).filter (survivesAck T) = cf :: rest :=
              List.filter_eq_self.mpr hall_sv
            rw [this]
            simp
          · rw [hstep]
            have : (cf :: rest).filter (detachedByAck T) = [] :=
              List.filter_eq_nil_iff.mpr hall_dt
            rw [this]
            simp
          · intro hwc; rw [hstep]; exact hwc
          · intro c hc hcw
            rw [hstep]
            exact ⟨c, List.mem_append_left _ hc, hcw, rfl⟩
          · intro x hx hxd _
            exact absurd hxd (hall_dt x hx)
        · have hstep : flush_ack_scan T (cf :: rest) kept removed cleaned w =
              flush_ack_scan T rest (kept ++ [cf]) removed
                ((if cf.tid = T then cf.caps else cleaned) &&& notW cf.caps)
                w := by
            simp [flush_ack_scan, hsnap, htle, hcl]
          have hk' : ∀ x ∈ kept ++ [cf], ∀ y ∈ rest, x.tid < y.tid := by
            intro x hx y hy
            rcases List.mem_append.mp hx with hx | hx
            · exact hk x hx y (List.mem_cons_of_mem _ hy)
            · rw [List.mem_singleton] at hx; subst hx; exact hcf_lt y hy
          rcases ihl (kept ++ [cf]) removed
            ((if cf.tid = T then cf.caps else cleaned) &&& notW cf.caps) w
            hrest hk' with ⟨ih1, ih2, ih3, ih4, ih5⟩
          have hdt : detachedByAck T cf = false := by
            simp [detachedByAck]
            omega
          refine ⟨?_, ?_, ?_, ?_, ?_⟩
          · rw [hstep, ih1, List.filter_cons, hsv]
            simp [List.append_assoc]
          · rw [hstep, ih2, List.filter_cons, hdt]
            simp
          · intro hwc; rw [hstep]; exact ih3 hwc
          · intro c hc hcw
            rw [hstep]
            exact ih4 c (List.mem_append_left _ hc) hcw
          · intro x hx hxd hxw
            rw [hstep]
            rw [List.mem_cons] at hx
            rcases hx with hx | hx
            · subst hx; rw [hxd] at hdt; exact absurd hdt (by simp)
            · exact ih5 x hx hxd hxw

theorem survivesAck_of_not_detached {T : Nat} {y : CapFlush}
    (h : ¬ detachedByAck T y = true) : survivesAck T y = true := by
  simp [detachedByAck] at h
  simp [survivesAck]
  by_cases hs : y.is_capsnap = true
  · exact Or.inl hs
  · right
    have := h (Bool.eq_false_iff.mpr hs)
    omega

/-- A snapshot flush record with tid 1 flushing FILE_EXCL. -/
def snapRec : CapFlush :=
  { tid := 1, caps := 512, wake := false, is_capsnap := true }

/-- A non-snapshot flush record with tid 2 carrying a wake obligation. -/
def wakeRec : CapFlush :=
  { tid := 2, caps := 512, wake := true, is_capsnap := false }

/-- Inode flush state holding the capsnap record and the waked record. -/
def ciC3 : InodeFlushState :=
  { dirty_caps := 0, flushing_caps := 512,
    cap_flush_list := [snapRec, wakeRec],
    on_dirty_list := false, on_flushing_list := true, prealloc := false }

/-- Matching client flush state. -/
def mdscC3 : MdscFlushState :=
  { last_cap_flush_tid := 2, cap_flush_list := [snapRec, wakeRec],
    num_cap_flushing := 1 }

/-- C3 counterexample: on the ack for tid 2 (acked bits 512), the
snapshot record with tid 1 ≤ 2 whose bits are covered by (and cover) the
acked bits is NOT detached from the per-inode list — `handle_cap_flush_ack`
skips capsnaps (caps.c:3834-3835) — and the wake obligation of the
detached tid-2 record is forwarded to that EARLIER surviving record
(caps.c:1893-1896), not to a later one (none survives), with no immediate
wake-up either. -/
theorem C3_counterexample :
    snapRec ∈ ciC3.cap_flush_list ∧ snapRec.tid ≤ 2 ∧
    bitsub snapRec.caps 512 ∧ bitsub 512 snapRec.caps ∧
    (∃ cf ∈ (handle_cap_flush_ack ciC3 mdscC3 2).ci.cap_flush_list,
      cf.tid = snapRec.tid) ∧
    (handle_cap_flush_ack ciC3 mdscC3 2).wake_ci = false ∧
    (∀ cf ∈ (handle_cap_flush_ack ciC3 mdscC3 2).ci.cap_flush_list,
      cf.wake = true → cf.tid < wakeRec.tid) := by
  decide

/-- C3 (amended): for every flush acknowledgment carrying tid T received
for an inode whose flush lists are tid-ordered: every NON-SNAPSHOT flush
record with tid ≤ T is detached from both the per-inode and the global
ordered lists (snapshot records and records with tid > T survive, with
only wake flags possibly updated); any wake obligation on a detached
record is forwarded to the nearest EARLIER surviving record of the
respective list, and reported to the caller — waking the inode's waiters
— when no earlier record survives, so a waiter blocked on an intermediate
tid is still woken once every earlier record completes. -/
theorem C3_flush_ack_detach (ci : InodeFlushState) (mdsc : MdscFlushState)
    (T : Nat)
    (hci : tidSorted ci.cap_flush_list)
    (hg : tidSorted mdsc.cap_flush_list) :
    ((handle_cap_flush_ack ci mdsc T).ci.cap_flush_list.map projTCS =
      (ci.cap_flush_list.filter (survivesAck T)).map projTCS) ∧
    ((handle_cap_flush_ack ci mdsc T).mdsc.cap_flush_list.map projTCS =
      (mdsc.cap_flush_list.filter (fun c => decide (c.tid ∉
        (ci.cap_flush_list.filter (detachedByAck T)).map
          CapFlush.tid))).map projTCS) ∧
    (∀ cf ∈ ci.cap_flush_list, detachedByAck T cf = true → cf.wake = true →
      (handle_cap_flush_ack ci mdsc T).wake_ci = true ∨
      ∃ c ∈ (handle_cap_flush_ack ci mdsc T).ci.cap_flush_list,
        c.wake = true ∧ c.tid < cf.tid) ∧
    (∀ x ∈ mdsc.cap_flush_list, x.wake = true →
      x.tid ∈ (ci.cap_flush_list.filter (detachedByAck T)).map CapFlush.tid →
      (handle_cap_flush_ack ci mdsc T).wake_mdsc = true ∨
      ∃ c ∈ (handle_cap_flush_ack ci mdsc T).mdsc.cap_flush_list,
        c.wake = true ∧ c.tid < x.tid) := by
  rcases flush_ack_scan_spec T ci.cap_flush_list [] [] 0 false hci
    (by intro x hx; simp at hx) with ⟨s1, s2, _, _, s5⟩
  rw [List.map_nil, List.nil_append] at s1
  rw [List.nil_append] at s2
  have hrs : List.Pairwise (fun a b => a.tid < b.tid)
      (ci.cap_flush_list.filter (detachedByAck T)) :=
    List.Pairwise.filter _ hci
  rcases detach_all_spec (ci.cap_flush_list.filter (detachedByAck T))
    mdsc.cap_flush_list false hg hrs with ⟨g1, _, g3, _⟩
  by_cases hout : (flush_ack_scan T ci.cap_flush_list [] [] 0
      false).to_remove.isEmpty ∧
      (flush_ack_scan T ci.cap_flush_list [] [] 0 false).cleaned = 0
  · -- goto out: nothing detached, nothing changes
    have hre : handle_cap_flush_ack ci mdsc T = ⟨ci, mdsc, false, false, false⟩ := by
      simp only [handle_cap_flush_ack]
      rw [if_pos hout]
    have hdet_nil : ci.cap_flush_list.filter (detachedByAck T) = [] := by
      rw [← s2]
      exact List.isEmpty_iff.mp hout.1
    refine ⟨?_, ?_, ?_, ?_⟩
    · rw [hre]
      have : ci.cap_flush_list.filter (survivesAck T) = ci.cap_flush_list := by
        apply List.filter_eq_self.mpr
        intro a ha
        apply survivesAck_of_not_detached
        intro hd
        have : a ∈ ci.cap_flush_list.filter (detachedByAck T) :=
          List.mem_filter.mpr ⟨ha, hd⟩
        rw [hdet_nil] at this
        simp at this
      rw [this]
    · rw [hre, hdet_nil]
      have : mdsc.cap_flush_list.filter
          (fun c => decide (c.tid ∉ ([] : List CapFlush).map CapFlush.tid)) =
          mdsc.cap_flush_list := by
        apply List.filter_eq_self.mpr
        intro a _
        simp
      rw [this]
    · intro cf hcf hd _
      have : cf ∈ ci.cap_flush_list.filter (detachedByAck T) :=
        List.mem_filter.mpr ⟨hcf, hd⟩
      rw [hdet_nil] at this
      simp at this
    · intro x _ _ hmem
      rw [hdet_nil] at hmem
      simp at hmem
  · -- the detach path
    have hre : handle_cap_flush_ack ci mdsc T =
        (if ci.flushing_caps &&& notW
            (flush_ack_scan T ci.cap_flush_list [] [] 0 false).cleaned = 0 then
          ⟨{ ci with flushing_caps := 0,
                     cap_flush_list :=
                       (flush_ack_scan T ci.cap_flush_list [] [] 0 false).kept,
                     on_flushing_list :=
                       if (flush_ack_scan T ci.cap_flush_list [] [] 0
                           false).kept.isEmpty then false
                       else ci.on_flushing_list },
           { mdsc with
               cap_flush_list :=
                 (detach_all mdsc.cap_flush_list
                   (flush_ack_scan T ci.cap_flush_list [] [] 0
                     false).to_remove false).1,
               num_cap_flushing := mdsc.num_cap_flushing - 1 },
           (flush_ack_scan T ci.cap_flush_list [] [] 0 false).wake_ci,
           (detach_all mdsc.cap_flush_list
             (flush_ack_scan T ci.cap_flush_list [] [] 0
               false).to_remove false).2,
           ci.dirty_caps == 0⟩
        else
          ⟨{ ci with
               flushing_caps := ci.flushing_caps &&& notW
                 (flush_ack_scan T ci.cap_flush_list [] [] 0 false).cleaned,
               cap_flush_list :=
                 (flush_ack_scan T ci.cap_flush_list [] [] 0 false).kept },
           { mdsc with
               cap_flush_list :=
                 (detach_all mdsc.cap_flush_list
                   (flush_ack_scan T ci.cap_flush_list [] [] 0
                     false).to_remove false).1 },
           (flush_ack_scan T ci.cap_flush_list [] [] 0 false).wake_ci,
           (detach_all mdsc.cap_flush_list
             (flush_ack_scan T ci.cap_flush_list [] [] 0
               false).to_remove false).2,
           false⟩) := by
      simp only [handle_cap_flush_ack]
      rw [if_neg hout]
    refine ⟨?_, ?_, ?_, ?_⟩
    · rw [hre]
      split <;> exact s1
    · rw [hre]
      split <;> (rw [s2]; exact g1)
    · intro cf hcf hd hw
      rcases s5 cf hcf hd hw with h | ⟨c, hc, hcw, hct⟩
      · left; rw [hre]; split <;> exact h
      · right
        refine ⟨c, ?_, hcw, hct⟩
        rw [hre]
        split <;> exact hc
    · intro x hx hxw hmem
      rcases g3 x hx hxw hmem with h | ⟨c, hc, hcw, hct⟩
      · left
        rw [hre]
        split <;> (rw [s2]; exact h)
      · right
        refine ⟨c, ?_, hcw, hct⟩
        rw [hre]
        split <;> (rw [s2]; exact hc)

/-- Witness for the amended C3 at a concrete input. -/
theorem C3_flush_ack_detach_witness :
    tidSorted ciC3.cap_flush_list ∧ tidSorted mdscC3.cap_flush_list ∧
    (((handle_cap_flush_ack ciC3 mdscC3 2).ci.cap_flush_list.map projTCS =
       (ciC3.cap_flush_list.filter (survivesAck 2)).map projTCS) ∧
     ((handle_cap_flush_ack ciC3 mdscC3 2).mdsc.cap_flush_list.map projTCS =
       (mdscC3.cap_flush_list.filter (fun c => decide (c.tid ∉
         (ciC3.cap_flush_list.filter (detachedByAck 2)).map
           CapFlush.tid))).map projTCS) ∧
     (∀ cf ∈ ciC3.cap_flush_list, detachedByAck 2 cf = true →
       cf.wake = true →
       (handle_cap_flush_ack ciC3 mdscC3 2).wake_ci = true ∨
       ∃ c ∈ (handle_cap_flush_ack ciC3 mdscC3 2).ci.cap_flush_list,
         c.wake = true ∧ c.tid < cf.tid) ∧
     (∀ x ∈ mdscC3.cap_flush_list, x.wake = true →
       x.tid ∈ (ciC3.cap_flush_list.filter (detachedByAck 2)).map
         CapFlush.tid →
       (handle_cap_flush_ack ciC3 mdscC3 2).wake_mdsc = true ∨
       ∃ c ∈ (handle_cap_flush_ack ciC3 mdscC3 2).mdsc.cap_flush_list,
         c.wake = true ∧ c.tid < x.tid)) :=
  ⟨by decide, by decide,
   C3_flush_ack_detach ciC3 mdscC3 2 (by decide) (by decide)⟩

/-! ### Per-inode capability set and migration (caps.c:441-466, 787-842,
4064-4191)

The rb-tree `ci->i_caps` keyed by MDS id becomes an association list;
`ci->i_auth_cap` is kept as the auth MDS id. -/

/-- `__get_cap_for_mds` (caps.c:441-456) over the association list. -/
def capsFind (l : List (Nat × CephCap)) (mds : Nat) : Option CephCap :=
  (l.find? (fun p => p.1 == mds)).map Prod.snd

/-- The inode's capability set: the keyed caps, the auth designation and
`i_snap_caps`. -/
structure InodeCaps where
  caps : List (Nat × CephCap)
  auth : Option Nat
  snap_caps : Nat

/-- `__cap_is_valid` (caps.c:787-805): a cap is valid unless its
generation lags the session's (`cap_gen < gen`) or the session TTL
expired (`time_after_eq(jiffies, ttl)`, abstracted as `!ttl_ok`). -/
def cap_is_valid (cap : CephCap) (sgen : Nat) (ttl_ok : Bool) : Bool :=
  !(decide (cap.cap_gen < sgen) || !ttl_ok)

/-- One step of `__ceph_caps_issued`'s rb-tree walk (caps.c:822-831):
fold a valid cap's issued/implemented bits into the accumulators. -/
def caps_issued_step (sgen : Nat → Nat) (ttl : Nat → Bool)
    (acc : Nat × Nat) (p : Nat × CephCap) : Nat × Nat :=
  if cap_is_valid p.2 (sgen p.1) (ttl p.1) = true then
    (acc.1 ||| p.2.issued, acc.2 ||| p.2.implemented)
  else acc

/-- `__ceph_caps_issued` (caps.c:812-842): union the valid caps' bits
starting from `i_snap_caps`, then exclude the auth cap's
being-revoked bits (`have &= ~cap->implemented | cap->issued`).
Returns (have, *implemented). -/
def ceph_caps_issued (st : InodeCaps) (sgen : Nat → Nat)
    (ttl : Nat → Bool) : Nat × Nat :=
  let folded := st.caps.foldl (caps_issued_step sgen ttl) (st.snap_caps, 0)
  match st.auth.bind (capsFind st.caps) with
  | some acap =>
    (folded.1 &&& (notW acap.implemented ||| acap.issued), folded.2)
  | none => folded

/-- The placeholder branch of `handle_cap_export` (caps.c:4090-4154):
the export names a destination MDS the client has no record of, the
target session has been opened and a fresh cap allocated (`tsession`
non-NULL, `tcap == NULL`).  The exported cap's issued bits are installed
in a placeholder for the target via
`ceph_add_cap(inode, tsession, t_cap_id, issued, 0, t_issue_seq - 1,
t_mseq, (u64)-1, flag, &new_cap)` and the source cap is removed
(`ceph_remove_cap`, clearing `i_auth_cap` if it pointed at it).
`tgen` is the target session's `s_cap_gen`. -/
def handle_cap_export_placeholder (st : InodeCaps) (mds target : Nat)
    (ex_cap_id t_cap_id t_issue_seq t_mseq tgen : Nat) : InodeCaps :=
  match capsFind st.caps mds with
  | none => st
  | some cap =>
    if cap.cap_id ≠ ex_cap_id then st
    else
      match capsFind st.caps target with
      | some _ => st
      | none =>
        let flag_auth : Bool := st.auth == some mds
        let tcap := (ceph_add_cap none tgen t_cap_id cap.issued 0
          (t_issue_seq - 1) t_mseq flag_auth).1
        -- ceph_add_cap's auth designation (caps.c:752-760): the old cap
        -- is i_auth_cap exactly when flag_auth, so the switch condition
        -- compares its mseq against the peer's
        let authSwitch : Bool :=
          flag_auth && decide (ceph_seq_cmp cap.mseq t_mseq < 0)
        let caps1 := st.caps ++ [(target, tcap)]
        let auth1 := if authSwitch then some target else st.auth
        -- ceph_remove_cap(mdsc, cap, false): erase from the tree and
        -- clear i_auth_cap when it still points at the source
        let caps2 := caps1.filter (fun p => decide (p.1 ≠ mds))
        let auth2 := if auth1 = some mds then none else auth1
        { caps := caps2, auth := auth2, snap_caps := st.snap_caps }

theorem capsFind_append (l1 l2 : List (Nat × CephCap)) (k : Nat) :
    capsFind (l1 ++ l2) k = (capsFind l1 k).or (capsFind l2 k) := by
  unfold capsFind
  rw [List.find?_append]
  cases h : l1.find? (fun p => p.1 == k) <;> simp [Option.or]

theorem capsFind_not_mem {l : List (Nat × CephCap)} {k : Nat}
    (h : ∀ p ∈ l, p.1 ≠ k) : capsFind l k = none := by
  unfold capsFind
  rw [List.find?_eq_none.mpr]
  · rfl
  · intro p hp
    simpa using h p hp

theorem capsFind_cons_self (k : Nat) (c : CephCap)
    (l : List (Nat × CephCap)) : capsFind ((k, c) :: l) k = some c := by
  simp [capsFind, List.find?_cons]

theorem capsFind_cons_ne {k k' : Nat} (h : k' ≠ k) (c : CephCap)
    (l : List (Nat × CephCap)) :
    capsFind ((k', c) :: l) k = capsFind l k := by
  simp [capsFind, List.find?_cons, h]

theorem caps_issued_fold_shift (sgen : Nat → Nat) (ttl : Nat → Bool) :
    ∀ (l : List (Nat × CephCap)) (a b : Nat),
      l.foldl (caps_issued_step sgen ttl) (a, b) =
        (a ||| (l.foldl (caps_issued_step sgen ttl) (0, 0)).1,
         b ||| (l.foldl (caps_issued_step sgen ttl) (0, 0)).2) := by
  intro l
  induction l with
  | nil => intro a b; simp
  | cons p l ih =>
    intro a b
    simp only [List.foldl_cons]
    by_cases hv : cap_is_valid p.2 (sgen p.1) (ttl p.1) = true
    · simp only [caps_issued_step, hv, if_true, reduceIte]
      rw [ih, ih (0 ||| p.2.issued)]
      simp [Nat.or_assoc]
    · simp only [caps_issued_step, hv, Bool.false_eq_true, if_false,
        reduceIte]
      exact ih a b

theorem caps_issued_fold_lt (sgen : Nat → Nat) (ttl : Nat → Bool) :
    ∀ (l : List (Nat × CephCap)),
      (∀ p ∈ l, p.2.issued < 2 ^ capWidth) →
      (l.foldl (caps_issued_step sgen ttl) (0, 0)).1 < 2 ^ capWidth := by
  intro l
  induction l with
  | nil => intro _; simp [capWidth]
  | cons p l ih =>
    intro hb
    simp only [List.foldl_cons]
    rw [caps_issued_fold_shift]
    apply Nat.or_lt_two_pow
    · by_cases hv : cap_is_valid p.2 (sgen p.1) (ttl p.1) = true
      · simp only [caps_issued_step, hv, if_true, reduceIte]
        have := hb p (List.mem_cons_self _ _)
        simpa using this
      · simp only [caps_issued_step, hv, Bool.false_eq_true, if_false,
          reduceIte]
        simp [capWidth]
    · exact ih (fun q hq => hb q (List.mem_cons_of_mem _ hq))

theorem land_notW_lor_self {x : Nat} (a : Nat) (hx : x < 2 ^ capWidth) :
    x &&& (notW a ||| a) = x := by
  apply Nat.eq_of_testBit_eq
  intro i
  simp only [Nat.testBit_and, Nat.testBit_or, notW, Nat.testBit_xor,
    testBit_fullMask]
  by_cases hi : i < capWidth
  · simp only [decide_eq_true hi]
    cases a.testBit i <;> simp
  · have hb : x.testBit i = false := by
      apply Nat.testBit_eq_false_of_lt
      calc x < 2 ^ capWidth := hx
        _ ≤ 2 ^ i := Nat.pow_le_pow_right (by norm_num) (Nat.le_of_not_lt hi)
    simp [hb]

theorem capsFind_isSome_of_mem {l : List (Nat × CephCap)} {a : Nat}
    (h : ∃ p ∈ l, p.1 = a) : (capsFind l a).isSome := by
  rcases h with ⟨p, hp, hpa⟩
  unfold capsFind
  have hfs : (List.find? (fun p => p.1 == a) l).isSome :=
    List.find?_isSome.mpr ⟨p, hp, by simp [hpa]⟩
  cases hf : List.find? (fun p => p.1 == a) l with
  | none => rw [hf] at hfs; simp at hfs
  | some x => simp [hf]

/-- C7: when an export arrives before the matching import and the client
has no record of the destination MDS, the exported bits are preserved in
a placeholder capability for the destination MDS, the source capability
is removed, and a subsequent combined-issued query (`__ceph_caps_issued`)
returns the same bits as before the export — the exported bits are
neither lost nor double-counted across two capability entries. -/
theorem C7_export_placeholder_no_double_count
    (pre post : List (Nat × CephCap)) (auth : Option Nat) (snap : Nat)
    (cap : CephCap) (mds target t_cap_id t_iseq t_mseq : Nat)
    (sgen : Nat → Nat) (ttl : Nat → Bool)
    (hkeys : ∀ p ∈ pre ++ post, p.1 ≠ mds ∧ p.1 ≠ target)
    (hne : target ≠ mds)
    (heq : cap.implemented = cap.issued)
    (hvalid_old : cap_is_valid cap (sgen mds) (ttl mds) = true)
    (httl_new : ttl target = true)
    (hsnap_lt : snap < 2 ^ capWidth)
    (hbits : ∀ p ∈ pre ++ post, p.2.issued < 2 ^ capWidth)
    (hcap_lt : cap.issued < 2 ^ capWidth)
    (hauth_ex : ∀ a, auth = some a → a ≠ mds → ∃ p ∈ pre ++ post, p.1 = a) :
    capsFind (handle_cap_export_placeholder
      ⟨pre ++ (mds, cap) :: post, auth, snap⟩ mds target cap.cap_id
      t_cap_id t_iseq t_mseq (sgen target)).caps mds = none ∧
    (∃ tc, capsFind (handle_cap_export_placeholder
        ⟨pre ++ (mds, cap) :: post, auth, snap⟩ mds target cap.cap_id
        t_cap_id t_iseq t_mseq (sgen target)).caps target = some tc ∧
      tc.issued = cap.issued ∧ tc.implemented = tc.issued) ∧
    (ceph_caps_issued (handle_cap_export_placeholder
        ⟨pre ++ (mds, cap) :: post, auth, snap⟩ mds target cap.cap_id
        t_cap_id t_iseq t_mseq (sgen target)) sgen ttl).1 =
      (ceph_caps_issued ⟨pre ++ (mds, cap) :: post, auth, snap⟩ sgen ttl).1 := by
  have hpre_mds : capsFind pre mds = none :=
    capsFind_not_mem (fun p hp => (hkeys p (List.mem_append_left _ hp)).1)
  have hpost_mds : capsFind post mds = none :=
    capsFind_not_mem (fun p hp => (hkeys p (List.mem_append_right _ hp)).1)
  have hpre_tgt : capsFind pre target = none :=
    capsFind_not_mem (fun p hp => (hkeys p (List.mem_append_left _ hp)).2)
  have hpost_tgt : capsFind post target = none :=
    capsFind_not_mem (fun p hp => (hkeys p (List.mem_append_right _ hp)).2)
  have f1 : capsFind (pre ++ (mds, cap) :: post) mds = some cap := by
    rw [capsFind_append, hpre_mds, capsFind_cons_self]
    rfl
  have f2 : capsFind (pre ++ (mds, cap) :: post) target = none := by
    rw [capsFind_append, hpre_tgt, capsFind_cons_ne (Ne.symm hne),
      hpost_tgt]
    rfl
  -- the placeholder produced by ceph_add_cap on a fresh record
  have htc_iss : ∀ fa : Bool,
      ((ceph_add_cap none (sgen target) t_cap_id cap.issued 0 (t_iseq - 1)
        t_mseq fa).1).issued = cap.issued := by
    intro fa; simp [ceph_add_cap, newCapInit]
  have htc_imp : ∀ fa : Bool,
      ((ceph_add_cap none (sgen target) t_cap_id cap.issued 0 (t_iseq - 1)
        t_mseq fa).1).implemented = cap.issued := by
    intro fa; simp [ceph_add_cap, newCapInit]
  have htc_gen : ∀ fa : Bool,
      ((ceph_add_cap none (sgen target) t_cap_id cap.issued 0 (t_iseq - 1)
        t_mseq fa).1).cap_gen = sgen target := by
    intro fa; simp [ceph_add_cap, newCapInit]
  -- the surviving entries of pre/post under the removal filter
  have h1f : pre.filter (fun p => !decide (p.1 = mds)) = pre :=
    List.filter_eq_self.mpr
      (fun p hp => by simp [(hkeys p (List.mem_append_left _ hp)).1])
  have h2f : post.filter (fun p => !decide (p.1 = mds)) = post :=
    List.filter_eq_self.mpr
      (fun p hp => by simp [(hkeys p (List.mem_append_right _ hp)).1])
  -- the caps field of the result, for any auth designation
  have hst_caps :
      (handle_cap_export_placeholder ⟨pre ++ (mds, cap) :: post, auth, snap⟩
        mds target cap.cap_id t_cap_id t_iseq t_mseq (sgen target)).caps =
      pre ++ post ++ [(target,
        (ceph_add_cap none (sgen target) t_cap_id cap.issued 0 (t_iseq - 1)
          t_mseq (auth == some mds)).1)] := by
    unfold handle_cap_export_placeholder
    simp only [f1, f2]
    simp [h1f, h2f, hne, List.append_assoc]
  refine ⟨?_, ?_, ?_⟩
  · rw [hst_caps, capsFind_append, capsFind_append, hpre_mds, hpost_mds,
      capsFind_cons_ne hne]
    rfl
  · refine ⟨(ceph_add_cap none (sgen target) t_cap_id cap.issued 0
      (t_iseq - 1) t_mseq (auth == some mds)).1, ?_, htc_iss _, ?_⟩
    · rw [hst_caps, capsFind_append, capsFind_append, hpre_tgt, hpost_tgt,
        capsFind_cons_self]
      rfl
    · rw [htc_imp, htc_iss]
  · -- the combined-issued query is unchanged
    have hP_lt := caps_issued_fold_lt sgen ttl pre
      (fun p hp => hbits p (List.mem_append_left _ hp))
    have hQ_lt := caps_issued_fold_lt sgen ttl post
      (fun p hp => hbits p (List.mem_append_right _ hp))
    have hfold_b : ((pre ++ (mds, cap) :: post).foldl
        (caps_issued_step sgen ttl) (snap, 0)).1 =
        snap ||| (pre.foldl (caps_issued_step sgen ttl) (0, 0)).1 |||
        cap.issued ||| (post.foldl (caps_issued_step sgen ttl) (0, 0)).1 := by
      rw [List.foldl_append, List.foldl_cons,
        caps_issued_fold_shift sgen ttl pre snap 0]
      simp only [caps_issued_step, hvalid_old, if_true, reduceIte]
      rw [caps_issued_fold_shift sgen ttl post]
    have hfold_a : ∀ tc : CephCap, tc.cap_gen = sgen target →
        ((pre ++ post ++ [(target, tc)]).foldl
          (caps_issued_step sgen ttl) (snap, 0)).1 =
        snap ||| (pre.foldl (caps_issued_step sgen ttl) (0, 0)).1 |||
        (post.foldl (caps_issued_step sgen ttl) (0, 0)).1 ||| tc.issued := by
      intro tc hgen
      have hv : cap_is_valid tc (sgen target) (ttl target) = true := by
        simp [cap_is_valid, hgen, httl_new]
      rw [List.foldl_append, List.foldl_append, List.foldl_cons,
        List.foldl_nil, caps_issued_fold_shift sgen ttl pre snap 0,
        caps_issued_fold_shift sgen ttl post]
      simp only [caps_issued_step, hv, if_true, reduceIte]
    have hor : snap ||| (pre.foldl (caps_issued_step sgen ttl) (0, 0)).1 |||
        cap.issued ||| (post.foldl (caps_issued_step sgen ttl) (0, 0)).1 =
        snap ||| (pre.foldl (caps_issued_step sgen ttl) (0, 0)).1 |||
        (post.foldl (caps_issued_step sgen ttl) (0, 0)).1 ||| cap.issued := by
      rw [Nat.or_assoc (snap ||| _), Nat.or_comm cap.issued _, ← Nat.or_assoc]
    have hb_lt : snap ||| (pre.foldl (caps_issued_step sgen ttl) (0, 0)).1 |||
        cap.issued ||| (post.foldl (caps_issued_step sgen ttl) (0, 0)).1 <
        2 ^ capWidth :=
      Nat.or_lt_two_pow (Nat.or_lt_two_pow
        (Nat.or_lt_two_pow hsnap_lt hP_lt) hcap_lt) hQ_lt
    have ha_lt : snap ||| (pre.foldl (caps_issued_step sgen ttl) (0, 0)).1 |||
        (post.foldl (caps_issued_step sgen ttl) (0, 0)).1 ||| cap.issued <
        2 ^ capWidth :=
      Nat.or_lt_two_pow (Nat.or_lt_two_pow
        (Nat.or_lt_two_pow hsnap_lt hP_lt) hQ_lt) hcap_lt
    have hfind_t : ∀ tc : CephCap,
        capsFind (pre ++ post ++ [(target, tc)]) target = some tc := by
      intro tc
      rw [capsFind_append, capsFind_append, hpre_tgt, hpost_tgt,
        capsFind_cons_self]
      rfl
    have hst_snap : (handle_cap_export_placeholder
        ⟨pre ++ (mds, cap) :: post, auth, snap⟩ mds target cap.cap_id
        t_cap_id t_iseq t_mseq (sgen target)).snap_caps = snap := by
      unfold handle_cap_export_placeholder
      simp only [f1, f2]
      simp
    unfold ceph_caps_issued
    dsimp only
    rw [hst_caps, hst_snap]
    rcases auth with _ | a
    · -- no auth cap before or after
      have hst_auth : (handle_cap_export_placeholder
          ⟨pre ++ (mds, cap) :: post, none, snap⟩ mds target cap.cap_id
          t_cap_id t_iseq t_mseq (sgen target)).auth = none := by
        unfold handle_cap_export_placeholder
        simp only [f1, f2]
        simp
      rw [hst_auth]
      simp only [Option.none_bind]
      rw [hfold_b, hfold_a _ (htc_gen _), htc_iss, hor]
    · by_cases ham : a = mds
      · subst ham
        by_cases hsw : ceph_seq_cmp cap.mseq t_mseq < 0
        · -- auth migrates to the placeholder
          have hst_auth : (handle_cap_export_placeholder
              ⟨pre ++ (a, cap) :: post, some a, snap⟩ a target cap.cap_id
              t_cap_id t_iseq t_mseq (sgen target)).auth = some target := by
            unfold handle_cap_export_placeholder
            simp only [f1, f2]
            simp [hsw, hne]
          rw [hst_auth]
          simp only [Option.some_bind]
          rw [hfind_t, f1]
          dsimp only
          rw [hfold_b, hfold_a _ (htc_gen _), htc_imp, htc_iss, heq,
            land_notW_lor_self _ ha_lt, land_notW_lor_self _ hb_lt, hor]
        · -- auth cleared by removing the source cap
          have hst_auth : (handle_cap_export_placeholder
              ⟨pre ++ (a, cap) :: post, some a, snap⟩ a target cap.cap_id
              t_cap_id t_iseq t_mseq (sgen target)).auth = none := by
            unfold handle_cap_export_placeholder
            simp only [f1, f2]
            simp [hsw]
          rw [hst_auth]
          simp only [Option.none_bind, Option.some_bind]
          rw [f1]
          dsimp only
          rw [hfold_b, hfold_a _ (htc_gen _), htc_iss, heq,
            land_notW_lor_self _ hb_lt, hor]
      · -- a different auth MDS: same exclusion on both sides
        have hst_auth : (handle_cap_export_placeholder
            ⟨pre ++ (mds, cap) :: post, some a, snap⟩ mds target cap.cap_id
            t_cap_id t_iseq t_mseq (sgen target)).auth = some a := by
          unfold handle_cap_export_placeholder
          simp only [f1, f2]
          simp [ham]
        rw [hst_auth]
        simp only [Option.some_bind]
        have hsome : (capsFind (pre ++ post) a).isSome :=
          capsFind_isSome_of_mem (hauth_ex a rfl ham)
        have hfeq : capsFind (pre ++ post ++ [(target,
            (ceph_add_cap none (sgen target) t_cap_id cap.issued 0
              (t_iseq - 1) t_mseq ((some a : Option Nat) == some mds)).1)])
            a = capsFind (pre ++ (mds, cap) :: post) a := by
          rw [capsFind_append, capsFind_append,
            capsFind_append pre ((mds, cap) :: post),
            capsFind_cons_ne (fun h => ham h.symm)]
          cases hp : capsFind pre a with
          | some c => simp [Option.or]
          | none =>
            cases hq : capsFind post a with
            | some c => simp [Option.or]
            | none =>
              exfalso
              rw [capsFind_append, hp, hq] at hsome
              simp [Option.or] at hsome
        rw [hfeq]
        cases hfind : capsFind (pre ++ (mds, cap) :: post) a with
        | none =>
          dsimp only
          rw [hfold_b, hfold_a _ (htc_gen _), htc_iss, hor]
        | some acap =>
          dsimp only
          rw [hfold_b, hfold_a _ (htc_gen _), htc_iss, hor]

/-- The exported capability of the C7 witness: FILE_RD issued and
implemented, held from MDS 0 which is the auth MDS. -/
def capC7 : CephCap :=
  { issued := 2048, implemented := 2048, mds_wanted := 2048, seq := 5,
    issue_seq := 5, mseq := 2, cap_id := 7, cap_gen := 0 }

/-- Witness for C7 at a concrete input: MDS 0 exports to MDS 1, no local
record of MDS 1 exists. -/
theorem C7_export_placeholder_no_double_count_witness :
    (∀ p ∈ ([] : List (Nat × CephCap)) ++ [], p.1 ≠ 0 ∧ p.1 ≠ 1) ∧
    (1 : Nat) ≠ 0 ∧
    capC7.implemented = capC7.issued ∧
    cap_is_valid capC7 ((fun _ => 0) 0) ((fun _ => true) 0) = true ∧
    (fun (_ : Nat) => true) 1 = true ∧
    (0 : Nat) < 2 ^ capWidth ∧
    (∀ p ∈ ([] : List (Nat × CephCap)) ++ [], p.2.issued < 2 ^ capWidth) ∧
    capC7.issued < 2 ^ capWidth ∧
    (capsFind (handle_cap_export_placeholder
      ⟨[] ++ (0, capC7) :: [], some 0, 0⟩ 0 1 capC7.cap_id
      9 4 3 ((fun _ => 0) 1)).caps 0 = none ∧
    (∃ tc, capsFind (handle_cap_export_placeholder
        ⟨[] ++ (0, capC7) :: [], some 0, 0⟩ 0 1 capC7.cap_id
        9 4 3 ((fun _ => 0) 1)).caps 1 = some tc ∧
      tc.issued = capC7.issued ∧ tc.implemented = tc.issued) ∧
    (ceph_caps_issued (handle_cap_export_placeholder
        ⟨[] ++ (0, capC7) :: [], some 0, 0⟩ 0 1 capC7.cap_id
        9 4 3 ((fun _ => 0) 1)) (fun _ => 0) (fun _ => true)).1 =
      (ceph_caps_issued ⟨[] ++ (0, capC7) :: [], some 0, 0⟩
        (fun _ => 0) (fun _ => true)).1) :=
  ⟨by intro p hp; simp at hp, by decide, rfl, by decide, rfl, by decide,
   by intro p hp; simp at hp, by decide,
   C7_export_placeholder_no_double_count [] [] (some 0) 0 capC7 0 1 9 4 3
     (fun _ => 0) (fun _ => true)
     (by intro p hp; simp at hp) (by decide) rfl (by decide) rfl
     (by decide) (by intro p hp; simp at hp) (by decide)
     (fun a ha ham => absurd (Option.some.inj ha).symm ham)⟩

/-! ### Non-blocking acquisition (caps.c:2807-3032) -/

/-- `try_get_cap_refs`'s flag bits (caps.c:2807-2811). -/
def NON_BLOCKING : Nat := 256

def CHECK_FILELOCK : Nat := 512

/-- `__ceph_caps_mds_wanted(ci, false)` (caps.c:1085-1101): union every
cap's `mds_wanted`, masking file-write bits on non-auth caps. -/
def ceph_caps_mds_wanted (st : InodeCaps) : Nat :=
  st.caps.foldl
    (fun acc p =>
      if st.auth = some p.1 then acc ||| p.2.mds_wanted
      else acc ||| (p.2.mds_wanted &&& notW CEPH_CAP_ANY_FILE_WR))
    0

/-- The inode state read by `try_get_cap_refs`: the capability set plus
the max-size negotiation fields and the condition flags.  `loff_t`
offsets and sizes are signed, hence `Int`.  The pending-truncate loop
(caps.c:2839-2847) runs to completion before the checks, so the state
models its fixpoint. -/
structure TryGetState where
  icaps : InodeCaps
  max_size : Int
  requested_max_size : Int
  wanted_max_size : Int
  error_filelock : Bool
  pending_cap_snap : Bool
  head_snapc : Bool
  session_readonly : Bool
  shutdown : Bool

/-- `try_get_cap_refs` (caps.c:2813-2967).  `trylock_ok` is the outcome
of `down_read_trylock(&mdsc->snap_rwsem)`; when the blocking
`down_read` path retries, the state is re-read unchanged, so it behaves
as an acquired lock.  Returns (ret, *got). -/
def try_get_cap_refs (st : TryGetState) (sgen : Nat → Nat)
    (ttl : Nat → Bool) (need want : Nat) (endoff : Int) (flags : Nat)
    (trylock_ok : Bool) : Int × Nat :=
  if flags &&& CHECK_FILELOCK ≠ 0 ∧ st.error_filelock then (- EIO, 0)
  else
    let hi := ceph_caps_issued st.icaps sgen ttl
    let have_ := hi.1
    let implemented := hi.2
    if have_ &&& need &&& CEPH_CAP_FILE_WR ≠ 0 ∧
        0 ≤ endoff ∧ endoff > st.max_size then
      if endoff > st.requested_max_size then
        (if st.icaps.auth.isSome then -EFBIG else -EUCLEAN, 0)
      else (0, 0)
    else if have_ &&& need &&& CEPH_CAP_FILE_WR ≠ 0 ∧
        st.pending_cap_snap then
      (0, 0)
    else if have_ &&& need = need then
      let not_ := want &&& notW (have_ &&& need)
      let revoking := implemented &&& notW have_
      let exclude := revoking &&& not_
      if exclude = 0 ∨ exclude &&& CEPH_CAP_FILE_BUFFER = 0 then
        if ¬ st.head_snapc ∧ need &&& CEPH_CAP_FILE_WR ≠ 0 ∧
            ¬ trylock_ok ∧ flags &&& NON_BLOCKING ≠ 0 then
          (-EAGAIN, 0)
        else
          (1, if have_ &&& want = want then need ||| (want &&& notW exclude)
              else need)
      else (0, 0)
    else
      if st.icaps.auth.isSome ∧
          need &&& (CEPH_CAP_FILE_WR ||| CEPH_CAP_FILE_EXCL) ≠ 0 ∧
          st.session_readonly then
        (-EROFS, 0)
      else if st.shutdown then (-ESTALE, 0)
      else if need &&& notW (ceph_caps_mds_wanted st.icaps) ≠ 0 then
        (-EUCLEAN, 0)
      else (0, 0)

/-- The max-size update of `handle_cap_grant` (caps.c:3661-3672): an
auth-cap grant carrying any file-write bit installs the new max size and
resets the request tracking when it covers the wanted size. -/
def handle_cap_grant_max_size (st : TryGetState) (is_auth : Bool)
    (newcaps : Nat) (max_size : Int) : TryGetState :=
  if is_auth = true ∧ newcaps &&& CEPH_CAP_ANY_FILE_WR ≠ 0 then
    if max_size ≠ st.max_size then
      { st with max_size := max_size,
                wanted_max_size :=
                  if max_size ≥ st.wanted_max_size then 0
                  else st.wanted_max_size,
                requested_max_size :=
                  if max_size ≥ st.wanted_max_size then 0
                  else st.requested_max_size }
    else st
  else st

/-- `get_used_fmode` (caps.c:2998-3006). -/
def get_used_fmode (caps : Nat) : Nat :=
  (if caps &&& CEPH_CAP_FILE_RD ≠ 0 then CEPH_FILE_MODE_RD else 0) |||
  (if caps &&& CEPH_CAP_FILE_WR ≠ 0 then CEPH_FILE_MODE_WR else 0)

/-- `ceph_try_get_caps` (caps.c:3008-3032): the public non-blocking
entry point.  `pool_perm_ret` is `ceph_pool_perm_check`'s result (an
external check, consulted only when `need != 0`).  The three recoverable
codes -EAGAIN, -EFBIG and -EUCLEAN are converted to 0. -/
def ceph_try_get_caps (st : TryGetState) (sgen : Nat → Nat)
    (ttl : Nat → Bool) (need want : Nat) (nonblock : Bool)
    (trylock_ok : Bool) (pool_perm_ret : Int) : Int × Nat :=
  if need ≠ 0 ∧ pool_perm_ret < 0 then (pool_perm_ret, 0)
  else
    let flags := get_used_fmode (need ||| want)
    let flags := if nonblock then flags ||| NON_BLOCKING else flags
    let r := try_get_cap_refs st sgen ttl need want 0 flags trylock_ok
    if r.1 = -EAGAIN ∨ r.1 = -EFBIG ∨ r.1 = -EUCLEAN then (0, r.2) else r

theorem handle_cap_grant_max_size_icaps (st : TryGetState) (b : Bool)
    (n : Nat) (m : Int) :
    (handle_cap_grant_max_size st b n m).icaps = st.icaps := by
  unfold handle_cap_grant_max_size
  split
  · split <;> rfl
  · rfl

theorem handle_cap_grant_max_size_fields (st : TryGetState) (n : Nat)
    (m : Int) (hn : n &&& CEPH_CAP_ANY_FILE_WR ≠ 0) (hm : m ≠ st.max_size) :
    (handle_cap_grant_max_size st true n m).max_size = m ∧
    (handle_cap_grant_max_size st true n m).error_filelock =
      st.error_filelock ∧
    (handle_cap_grant_max_size st true n m).pending_cap_snap =
      st.pending_cap_snap ∧
    (handle_cap_grant_max_size st true n m).head_snapc = st.head_snapc := by
  unfold handle_cap_grant_max_size
  rw [if_pos ⟨rfl, hn⟩, if_pos hm]
  exact ⟨rfl, rfl, rfl, rfl⟩

/-- An auth capability holding FILE_WR, issued and implemented. -/
def capWR : CephCap :=
  { issued := 4096, implemented := 4096, mds_wanted := 4096, seq := 3,
    issue_seq := 3, mseq := 1, cap_id := 11, cap_gen := 0 }

/-- Inode state with FILE_WR issued, max size 50 already negotiated and
200 already requested from the MDS. -/
def st8 : TryGetState :=
  { icaps := ⟨[(0, capWR)], some 0, 0⟩, max_size := 50,
    requested_max_size := 200, wanted_max_size := 200,
    error_filelock := false, pending_cap_snap := false, head_snapc := true,
    session_readonly := false, shutdown := false }

/-- C8 counterexample: a write to end offset 100 exceeds the negotiated
max size (50) but is within the already-requested max size (200); the
non-blocking attempt returns 0 ("not yet", wait for the already-requested
growth), NOT the need-larger-max-size code — `try_get_cap_refs` returns
-EFBIG only when the offset also exceeds `i_requested_max_size`
(caps.c:2852-2857). -/
theorem C8_counterexample :
    st8.max_size < (100 : Int) ∧ (100 : Int) ≤ st8.requested_max_size ∧
    (try_get_cap_refs st8 (fun _ => 0) (fun _ => true) CEPH_CAP_FILE_WR 0
      100 NON_BLOCKING true).1 = 0 ∧
    (try_get_cap_refs st8 (fun _ => 0) (fun _ => true) CEPH_CAP_FILE_WR 0
      100 NON_BLOCKING true).1 ≠ -EFBIG := by
  decide

/-- C8 (amended): a write-capability acquisition attempt whose end offset
exceeds both the currently negotiated max size and the already-requested
max size returns the need-larger-max-size code (-EFBIG) once; after a
grant raising the max size to cover that offset
(`handle_cap_grant`'s max-size update), a retry with the same offset
succeeds.  (An offset within the already-requested max size instead
returns 0, "not yet".) -/
theorem C8_need_larger_max_size (st : TryGetState) (sgen : Nat → Nat)
    (ttl : Nat → Bool) (need want newcaps : Nat) (endoff new_max : Int)
    (flags : Nat)
    (hfl : ¬ (flags &&& CHECK_FILELOCK ≠ 0 ∧ st.error_filelock = true))
    (hWR : (ceph_caps_issued st.icaps sgen ttl).1 &&& need &&&
      CEPH_CAP_FILE_WR ≠ 0)
    (hoff : 0 ≤ endoff) (hbig : endoff > st.max_size)
    (hreq : endoff > st.requested_max_size)
    (hauth : st.icaps.auth.isSome = true)
    (hnewWR : newcaps &&& CEPH_CAP_ANY_FILE_WR ≠ 0)
    (hnm : new_max ≠ st.max_size) (hcover : endoff ≤ new_max)
    (hneed : (ceph_caps_issued st.icaps sgen ttl).1 &&& need = need)
    (hsnap : st.pending_cap_snap = false)
    (hexc : (ceph_caps_issued st.icaps sgen ttl).2 &&&
      notW (ceph_caps_issued st.icaps sgen ttl).1 &&&
      (want &&& notW ((ceph_caps_issued st.icaps sgen ttl).1 &&& need)) = 0) :
    (try_get_cap_refs st sgen ttl need want endoff flags true).1 = -EFBIG ∧
    (try_get_cap_refs (handle_cap_grant_max_size st true newcaps new_max)
      sgen ttl need want endoff flags true).1 = 1 := by
  rcases handle_cap_grant_max_size_fields st newcaps new_max hnewWR hnm
    with ⟨hms, hef, hps, _⟩
  have hic := handle_cap_grant_max_size_icaps st true newcaps new_max
  constructor
  · unfold try_get_cap_refs
    rw [if_neg hfl]
    dsimp only
    rw [if_pos ⟨hWR, hoff, hbig⟩, if_pos hreq]
    simp [hauth]
  · unfold try_get_cap_refs
    rw [hic, hms, hef, hps]
    rw [if_neg hfl]
    dsimp only
    rw [if_neg (by
      rintro ⟨-, -, hlt⟩
      omega)]
    rw [if_neg (by
      rintro ⟨-, hpend⟩
      rw [hsnap] at hpend
      exact absurd hpend (by simp))]
    rw [if_pos hneed]
    rw [if_pos (Or.inl hexc)]
    rw [if_neg (by
      rintro ⟨-, -, htl, -⟩
      exact htl rfl)]

/-- The C8 witness state: max size 50 negotiated, only 80 requested. -/
def st9 : TryGetState :=
  { st8 with requested_max_size := 80, wanted_max_size := 80 }

/-- Witness for the amended C8 at a concrete input: end offset 100 beyond
both the negotiated (50) and requested (80) max size, then a grant
raising the max size to 300. -/
theorem C8_need_larger_max_size_witness :
    ¬ (NON_BLOCKING &&& CHECK_FILELOCK ≠ 0 ∧ st9.error_filelock = true) ∧
    (ceph_caps_issued st9.icaps (fun _ => 0) (fun _ => true)).1 &&& 4096 &&&
      CEPH_CAP_FILE_WR ≠ 0 ∧
    (0 : Int) ≤ 100 ∧ (100 : Int) > st9.max_size ∧
    (100 : Int) > st9.requested_max_size ∧
    st9.icaps.auth.isSome = true ∧
    (4096 : Nat) &&& CEPH_CAP_ANY_FILE_WR ≠ 0 ∧
    (300 : Int) ≠ st9.max_size ∧ (100 : Int) ≤ 300 ∧
    (ceph_caps_issued st9.icaps (fun _ => 0) (fun _ => true)).1 &&& 4096 =
      4096 ∧
    st9.pending_cap_snap = false ∧
    (ceph_caps_issued st9.icaps (fun _ => 0) (fun _ => true)).2 &&&
      notW (ceph_caps_issued st9.icaps (fun _ => 0) (fun _ => true)).1 &&&
      ((0 : Nat) &&& notW ((ceph_caps_issued st9.icaps (fun _ => 0)
        (fun _ => true)).1 &&& 4096)) = 0 ∧
    ((try_get_cap_refs st9 (fun _ => 0) (fun _ => true) 4096 0 100
        NON_BLOCKING true).1 = -EFBIG ∧
     (try_get_cap_refs (handle_cap_grant_max_size st9 true 4096 300)
        (fun _ => 0) (fun _ => true) 4096 0 100 NON_BLOCKING true).1 = 1) :=
  ⟨by decide, by decide, by decide, by decide, by decide, by decide,
   by decide, by decide, by decide, by decide, by decide, by decide,
   C8_need_larger_max_size st9 (fun _ => 0) (fun _ => true) 4096 0 4096
     100 300 NON_BLOCKING (by decide) (by decide) (by decide) (by decide)
     (by decide) (by decide) (by decide) (by decide) (by decide)
     (by decide) (by decide) (by decide)⟩

/-! ### Incoming message dispatch (caps.c:4327-4598) -/

/-- Cap operation codes.  Modelled from the spec: the numeric values come
from the protocol header outside the capability core
(`include/linux/ceph/ceph_fs.h`); only their distinctness matters. -/
def CEPH_CAP_OP_GRANT : Nat := 0
def CEPH_CAP_OP_REVOKE : Nat := 1
def CEPH_CAP_OP_TRUNC : Nat := 2
def CEPH_CAP_OP_EXPORT : Nat := 3
def CEPH_CAP_OP_IMPORT : Nat := 4
def CEPH_CAP_OP_FLUSH : Nat := 5
def CEPH_CAP_OP_FLUSH_ACK : Nat := 6
def CEPH_CAP_OP_FLUSHSNAP : Nat := 7
def CEPH_CAP_OP_FLUSHSNAP_ACK : Nat := 8

/-- Which handler an incoming, well-formed cap message reaches. -/
inductive CapsDispatch where
  | no_inode (release : Bool)
  | flushsnap_ack
  | export_op
  | import_op
  | no_cap (release : Bool)
  | grant
  | flush_ack
  | trunc
  | unknown
  deriving Repr, DecidableEq

/-- The post-decode dispatch of `ceph_handle_caps` (caps.c:4450-4598):
with no cached inode, only IMPORT/REVOKE/GRANT set `do_cap_release`
before `flush_cap_releases`; FLUSHSNAP_ACK, EXPORT and IMPORT run
without a cap lookup; the remaining ops require a cap, and when it is
missing only REVOKE/GRANT queue a release. -/
def ceph_handle_caps_dispatch (op : Nat) (inode_cached have_cap : Bool) :
    CapsDispatch :=
  if inode_cached = false then
    .no_inode (decide (op = CEPH_CAP_OP_IMPORT ∨ op = CEPH_CAP_OP_REVOKE ∨
      op = CEPH_CAP_OP_GRANT))
  else if op = CEPH_CAP_OP_FLUSHSNAP_ACK then .flushsnap_ack
  else if op = CEPH_CAP_OP_EXPORT then .export_op
  else if op = CEPH_CAP_OP_IMPORT then .import_op
  else if have_cap = false then
    .no_cap (decide (op = CEPH_CAP_OP_REVOKE ∨ op = CEPH_CAP_OP_GRANT))
  else if op = CEPH_CAP_OP_REVOKE ∨ op = CEPH_CAP_OP_GRANT then .grant
  else if op = CEPH_CAP_OP_FLUSH_ACK then .flush_ack
  else if op = CEPH_CAP_OP_TRUNC then .trunc
  else .unknown

/-- Whether the dispatch queues a cap release toward the session
(`__ceph_queue_cap_release` under `flush_cap_releases`,
caps.c:4573-4592). -/
def emits_release : CapsDispatch → Bool
  | .no_inode r => r
  | .no_cap r => r
  | _ => false

/-- C9 counterexample: a FLUSH_ACK for an inode that is not cached
locally is dropped without queueing a release notice —
`ceph_handle_caps` sets `do_cap_release` only for IMPORT, REVOKE and
GRANT (caps.c:4460-4468). -/
theorem C9_counterexample :
    ceph_handle_caps_dispatch CEPH_CAP_OP_FLUSH_ACK false false =
      CapsDispatch.no_inode false ∧
    emits_release
      (ceph_handle_caps_dispatch CEPH_CAP_OP_FLUSH_ACK false false) =
      false := by
  decide

/-- C9 (amended): for an incoming cap message whose targeted inode is not
cached locally, the client queues a release notice toward the
originating session exactly when the operation is IMPORT, REVOKE or
GRANT (and, when the inode is cached but holds no cap from that MDS,
exactly when it is REVOKE or GRANT); other operations — FLUSH_ACK,
FLUSHSNAP_ACK, EXPORT, TRUNC, unknown — are not answered with a
release. -/
theorem C9_release_on_unknown_ino (op : Nat) (have_cap : Bool) :
    (emits_release (ceph_handle_caps_dispatch op false have_cap) = true ↔
      (op = CEPH_CAP_OP_IMPORT ∨ op = CEPH_CAP_OP_REVOKE ∨
       op = CEPH_CAP_OP_GRANT)) ∧
    (emits_release (ceph_handle_caps_dispatch op true false) = true ↔
      (op = CEPH_CAP_OP_REVOKE ∨ op = CEPH_CAP_OP_GRANT)) := by
  unfold ceph_handle_caps_dispatch
  constructor
  · simp [emits_release]
  · split_ifs with h1 h2 h3 h4 <;>
      simp_all [emits_release, CEPH_CAP_OP_GRANT, CEPH_CAP_OP_REVOKE,
        CEPH_CAP_OP_EXPORT, CEPH_CAP_OP_IMPORT, CEPH_CAP_OP_FLUSHSNAP_ACK]

/-- The return values `try_get_cap_refs` can produce
(caps.c:2801-2806). -/
theorem try_get_cap_refs_ret_cases (st : TryGetState) (sgen : Nat → Nat)
    (ttl : Nat → Bool) (need want : Nat) (endoff : Int) (flags : Nat)
    (tl : Bool) :
    (try_get_cap_refs st sgen ttl need want endoff flags tl).1 = - EIO ∨
    (try_get_cap_refs st sgen ttl need want endoff flags tl).1 = 0 ∨
    (try_get_cap_refs st sgen ttl need want endoff flags tl).1 = -EFBIG ∨
    (try_get_cap_refs st sgen ttl need want endoff flags tl).1 = -EUCLEAN ∨
    (try_get_cap_refs st sgen ttl need want endoff flags tl).1 = -EAGAIN ∨
    (try_get_cap_refs st sgen ttl need want endoff flags tl).1 = 1 ∨
    (try_get_cap_refs st sgen ttl need want endoff flags tl).1 = -EROFS ∨
    (try_get_cap_refs st sgen ttl need want endoff flags tl).1 = -ESTALE := by
  unfold try_get_cap_refs
  dsimp only
  split_ifs <;> simp

/-- The wrapper's final filter (caps.c:3025-3027): mapping the three
recoverable codes to 0 yields a value that is none of them and is
either 0, 1 or a negative terminal error. -/
theorem filter_codes_ok (r : Int × Nat)
    (hr : r.1 = - EIO ∨ r.1 = 0 ∨ r.1 = -EFBIG ∨ r.1 = -EUCLEAN ∨
      r.1 = -EAGAIN ∨ r.1 = 1 ∨ r.1 = -EROFS ∨ r.1 = -ESTALE) :
    ((if r.1 = -EAGAIN ∨ r.1 = -EFBIG ∨ r.1 = -EUCLEAN then
        ((0 : Int), r.2) else r).1 ≠ -EAGAIN ∧
     (if r.1 = -EAGAIN ∨ r.1 = -EFBIG ∨ r.1 = -EUCLEAN then
        ((0 : Int), r.2) else r).1 ≠ -EFBIG ∧
     (if r.1 = -EAGAIN ∨ r.1 = -EFBIG ∨ r.1 = -EUCLEAN then
        ((0 : Int), r.2) else r).1 ≠ -EUCLEAN) ∧
    ((if r.1 = -EAGAIN ∨ r.1 = -EFBIG ∨ r.1 = -EUCLEAN then
        ((0 : Int), r.2) else r).1 = 0 ∨
     (if r.1 = -EAGAIN ∨ r.1 = -EFBIG ∨ r.1 = -EUCLEAN then
        ((0 : Int), r.2) else r).1 = 1 ∨
     (if r.1 = -EAGAIN ∨ r.1 = -EFBIG ∨ r.1 = -EUCLEAN then
        ((0 : Int), r.2) else r).1 < 0) := by
  by_cases hc : r.1 = -EAGAIN ∨ r.1 = -EFBIG ∨ r.1 = -EUCLEAN
  · rw [if_pos hc]
    refine ⟨⟨?_, ?_, ?_⟩, Or.inl rfl⟩
    · show (0 : Int) ≠ -EAGAIN
      decide
    · show (0 : Int) ≠ -EFBIG
      decide
    · show (0 : Int) ≠ -EUCLEAN
      decide
  · rw [if_neg hc]
    push_neg at hc
    refine ⟨⟨hc.1, hc.2.1, hc.2.2⟩, ?_⟩
    rcases hr with h | h | h | h | h | h | h | h <;> rw [h]
    · simp only [ EIO]
      omega
    · omega
    · simp only [EFBIG]
      omega
    · simp only [EUCLEAN]
      omega
    · simp only [EAGAIN]
      omega
    · omega
    · simp only [EROFS]
      omega
    · simp only [ESTALE]
      omega

/-- C10: the public non-blocking entry point `ceph_try_get_caps` never
returns the three recoverable internal codes (-EAGAIN would-block,
-EFBIG need-larger-max-size, -EUCLEAN need-renewal): each is converted
to 0, so the caller observes only 0 (not acquired), 1 (acquired), or a
terminal negative error. -/
theorem C10_no_recoverable_codes_escape (st : TryGetState)
    (sgen : Nat → Nat) (ttl : Nat → Bool) (need want : Nat)
    (nonblock trylock_ok : Bool) (pool_perm_ret : Int)
    (hp1 : pool_perm_ret ≤ 0)
    (hp2 : pool_perm_ret ≠ -EAGAIN ∧ pool_perm_ret ≠ -EFBIG ∧
      pool_perm_ret ≠ -EUCLEAN) :
    ((ceph_try_get_caps st sgen ttl need want nonblock trylock_ok
        pool_perm_ret).1 ≠ -EAGAIN ∧
     (ceph_try_get_caps st sgen ttl need want nonblock trylock_ok
        pool_perm_ret).1 ≠ -EFBIG ∧
     (ceph_try_get_caps st sgen ttl need want nonblock trylock_ok
        pool_perm_ret).1 ≠ -EUCLEAN) ∧
    ((ceph_try_get_caps st sgen ttl need want nonblock trylock_ok
        pool_perm_ret).1 = 0 ∨
     (ceph_try_get_caps st sgen ttl need want nonblock trylock_ok
        pool_perm_ret).1 = 1 ∨
     (ceph_try_get_caps st sgen ttl need want nonblock trylock_ok
        pool_perm_ret).1 < 0) := by
  by_cases h1 : need ≠ 0 ∧ pool_perm_ret < 0
  · unfold ceph_try_get_caps
    rw [if_pos h1]
    exact ⟨hp2, Or.inr (Or.inr h1.2)⟩
  · unfold ceph_try_get_caps
    rw [if_neg h1]
    dsimp only
    exact filter_codes_ok _
      (try_get_cap_refs_ret_cases st sgen ttl need want 0 _ trylock_ok)

/-- Witness for C10 at a concrete input: a non-blocking attempt for
FILE_WR on the small-max-size state `st8` with a clean pool-permission
result returns one of 0, 1 or a terminal error and none of the three
recoverable codes. -/
theorem C10_no_recoverable_codes_escape_witness :
    ((0 : Int) ≤ 0 ∧
     ((0 : Int) ≠ -EAGAIN ∧ (0 : Int) ≠ -EFBIG ∧ (0 : Int) ≠ -EUCLEAN)) ∧
    (((ceph_try_get_caps st8 (fun _ => 0) (fun _ => true) 4096 0 true true
        0).1 ≠ -EAGAIN ∧
      (ceph_try_get_caps st8 (fun _ => 0) (fun _ => true) 4096 0 true true
        0).1 ≠ -EFBIG ∧
      (ceph_try_get_caps st8 (fun _ => 0) (fun _ => true) 4096 0 true true
        0).1 ≠ -EUCLEAN) ∧
     ((ceph_try_get_caps st8 (fun _ => 0) (fun _ => true) 4096 0 true true
        0).1 = 0 ∨
      (ceph_try_get_caps st8 (fun _ => 0) (fun _ => true) 4096 0 true true
        0).1 = 1 ∨
      (ceph_try_get_caps st8 (fun _ => 0) (fun _ => true) 4096 0 true true
        0).1 < 0)) :=
  ⟨⟨by decide, by decide, by decide, by decide⟩,
    C10_no_recoverable_codes_escape st8 (fun _ => 0) (fun _ => true) 4096 0
      true true 0 (by decide) ⟨by decide, by decide, by decide⟩⟩

/-- A clean inode: nothing dirty, nothing flushing, off every index. -/
def cleanCi : InodeFlushState :=
  { dirty_caps := 0, flushing_caps := 0, cap_flush_list := [],
    on_dirty_list := false, on_flushing_list := false, prealloc := false }

/-- Witness for C4 at a concrete input (dirty the FILE_EXCL bit 512 on a
clean inode while one unrelated flush is outstanding globally). -/
theorem C4_dirty_flush_ack_roundtrip_witness :
    cleanCi.dirty_caps = 0 ∧ cleanCi.flushing_caps = 0 ∧
    cleanCi.cap_flush_list = [] ∧ cleanCi.on_dirty_list = false ∧
    cleanCi.on_flushing_list = false ∧ 512 < 2 ^ capWidth ∧
    tidsBelow sampleMdsc.cap_flush_list sampleMdsc.last_cap_flush_tid ∧
    ((dirty_flush_ack_roundtrip cleanCi sampleMdsc 512).1 = 1 ∧
     (dirty_flush_ack_roundtrip cleanCi sampleMdsc 512).2.drop = true ∧
     (dirty_flush_ack_roundtrip cleanCi sampleMdsc 512).2.ci.dirty_caps = 0 ∧
     (dirty_flush_ack_roundtrip cleanCi sampleMdsc 512).2.ci.flushing_caps = 0 ∧
     (dirty_flush_ack_roundtrip cleanCi sampleMdsc 512).2.ci.cap_flush_list = [] ∧
     (dirty_flush_ack_roundtrip cleanCi sampleMdsc 512).2.ci.on_dirty_list = false ∧
     (dirty_flush_ack_roundtrip cleanCi sampleMdsc 512).2.ci.on_flushing_list = false ∧
     (dirty_flush_ack_roundtrip cleanCi sampleMdsc 512).2.mdsc.cap_flush_list =
       sampleMdsc.cap_flush_list ∧
     (dirty_flush_ack_roundtrip cleanCi sampleMdsc 512).2.mdsc.num_cap_flushing =
       sampleMdsc.num_cap_flushing) :=
  ⟨rfl, rfl, rfl, rfl, rfl, by decide, by decide,
   C4_dirty_flush_ack_roundtrip cleanCi sampleMdsc 512 rfl rfl rfl rfl rfl
     (by decide) (by decide)⟩

/-- Witness for C5 at a concrete input (counter at 41 → the new flush
gets tid 42). -/
theorem C5_tid_monotonicity_witness :
    tidSorted sampleMdsc.cap_flush_list ∧
    tidSorted sampleCi.cap_flush_list ∧
    tidsBelow sampleMdsc.cap_flush_list sampleMdsc.last_cap_flush_tid ∧
    tidsBelow sampleCi.cap_flush_list sampleMdsc.last_cap_flush_tid ∧
    ((∀ cf ∈ sampleMdsc.cap_flush_list,
        cf.tid < (mark_caps_flushing sampleCi sampleMdsc false).2.2.1) ∧
     (∀ cf ∈ sampleCi.cap_flush_list,
        cf.tid < (mark_caps_flushing sampleCi sampleMdsc false).2.2.1) ∧
     (mark_caps_flushing sampleCi sampleMdsc false).2.1.last_cap_flush_tid =
       (mark_caps_flushing sampleCi sampleMdsc false).2.2.1 ∧
     tidSorted
       (mark_caps_flushing sampleCi sampleMdsc false).2.1.cap_flush_list ∧
     tidSorted
       (mark_caps_flushing sampleCi sampleMdsc false).1.cap_flush_list ∧
     tidsBelow
       (mark_caps_flushing sampleCi sampleMdsc false).2.1.cap_flush_list
       (mark_caps_flushing sampleCi sampleMdsc false).2.1.last_cap_flush_tid ∧
     tidsBelow
       (mark_caps_flushing sampleCi sampleMdsc false).1.cap_flush_list
       (mark_caps_flushing sampleCi sampleMdsc false).2.1.last_cap_flush_tid ∧
     get_oldest_flush_tid sampleMdsc ≤
       get_oldest_flush_tid (mark_caps_flushing sampleCi sampleMdsc false).2.1) :=
  ⟨by decide, by decide, by decide, by decide,
   C5_tid_monotonicity sampleCi sampleMdsc false
     (by decide) (by decide) (by decide) (by decide)⟩

end CephCaps
